import Mathlib

set_option maxRecDepth 100000
set_option maxHeartbeats 1000000

/-!
Shallow embedding of the `rust_gpt` GPT codec library (src/err.rs, src/parse.rs,
src/uuid.rs, src/mbr.rs, src/hdr.rs, src/entry.rs, src/gpt.rs).

Byte buffers (`&[u8]`) are embedded as `List Nat`; where a theorem needs the
u8 range it carries an explicit `∀ b ∈ data, b < 256` hypothesis.
Rust panics (`unwrap()` on `None`, out-of-range slice indexing, division by
zero) are modelled by the `DecodeResult.panic` outcome.
-/

/-- Error taxonomy, translated from src/err.rs `GptError`. -/
inductive GptError where
  | HdrSignature
  | HdrRevision
  | HdrSize
  | HdrCrc32
  | MbrUnknownNonZero
  | MbrDiskSignature
  | MbrSignature
  | MbrPRStartingChs
  | MbrPREndingChs
  | MbrPROsType
  | MbrPRStartingLba
  | PartUUID
  deriving DecidableEq

deriving instance DecidableEq for Except

/-- Outcome of running Rust code that may return `Ok`, return `Err`, or panic
(`unwrap()` of `None`, slice indexing out of range, division by zero). -/
inductive DecodeResult (α : Type) where
  | panic
  | error (e : GptError)
  | ok (a : α)
  deriving DecidableEq

def DecodeResult.bind {α β : Type} : DecodeResult α → (α → DecodeResult β) → DecodeResult β
  | .panic, _ => .panic
  | .error e, _ => .error e
  | .ok a, f => f a

/-- Contiguous slice `l[offset..offset + n]` (callers guard the bounds). -/
def subslice (l : List Nat) (offset n : Nat) : List Nat :=
  (l.drop offset).take n

/-- src/parse.rs `LittleEndianBytes`: a borrowed byte buffer plus a cursor. -/
structure LittleEndianBytes where
  data : List Nat
  cursor : Nat
  deriving DecidableEq

/-- `impl From<&[u8]> for LittleEndianBytes`: cursor starts at 0. -/
def LittleEndianBytes.ofSlice (value : List Nat) : LittleEndianBytes :=
  ⟨value, 0⟩

/-- src/parse.rs `skip`: advance the cursor without reading. -/
def LittleEndianBytes.skip (s : LittleEndianBytes) (size : Nat) : LittleEndianBytes :=
  ⟨s.data, s.cursor + size⟩

/-- src/parse.rs `parse_u8`: guard `cursor < len`, read one byte, advance 1. -/
def LittleEndianBytes.parse_u8 (s : LittleEndianBytes) : Option (Nat × LittleEndianBytes) :=
  if s.cursor < s.data.length then
    some (s.data.getD s.cursor 0, ⟨s.data, s.cursor + 1⟩)
  else none

/-- src/parse.rs `parse_u16`: guard `cursor + 1 < len`, assemble little-endian,
advance 2. -/
def LittleEndianBytes.parse_u16 (s : LittleEndianBytes) : Option (Nat × LittleEndianBytes) :=
  if s.cursor + 1 < s.data.length then
    some ((s.data.getD (s.cursor + 1) 0) <<< 8 ||| s.data.getD s.cursor 0,
      ⟨s.data, s.cursor + 2⟩)
  else none

/-- src/parse.rs `parse_u32`: guard `cursor + 3 < len`, assemble little-endian,
advance 4. -/
def LittleEndianBytes.parse_u32 (s : LittleEndianBytes) : Option (Nat × LittleEndianBytes) :=
  if s.cursor + 3 < s.data.length then
    some ((s.data.getD (s.cursor + 3) 0) <<< 24 ||| (s.data.getD (s.cursor + 2) 0) <<< 16 |||
      (s.data.getD (s.cursor + 1) 0) <<< 8 ||| s.data.getD s.cursor 0,
      ⟨s.data, s.cursor + 4⟩)
  else none

/-- src/parse.rs `parse_u64`: guard `cursor + 7 < len`, assemble little-endian,
advance 8. -/
def LittleEndianBytes.parse_u64 (s : LittleEndianBytes) : Option (Nat × LittleEndianBytes) :=
  if s.cursor + 7 < s.data.length then
    some ((s.data.getD (s.cursor + 7) 0) <<< 56 ||| (s.data.getD (s.cursor + 6) 0) <<< 48 |||
      (s.data.getD (s.cursor + 5) 0) <<< 40 ||| (s.data.getD (s.cursor + 4) 0) <<< 32 |||
      (s.data.getD (s.cursor + 3) 0) <<< 24 ||| (s.data.getD (s.cursor + 2) 0) <<< 16 |||
      (s.data.getD (s.cursor + 1) 0) <<< 8 ||| s.data.getD s.cursor 0,
      ⟨s.data, s.cursor + 8⟩)
  else none

/-- src/parse.rs `copy_from::<N>(offset)`: copies `data[offset..offset + n]`
(`none` models the slice-indexing panic when `offset + n > len`) and then
advances the cursor by `n` relative to its CURRENT position — not to the
absolute offset. This relative advance is the root of the header decoder's
off-by-eight behaviour. -/
def LittleEndianBytes.copy_from (s : LittleEndianBytes) (offset n : Nat) :
    Option (List Nat × LittleEndianBytes) :=
  if offset + n ≤ s.data.length then
    some (subslice s.data offset n, ⟨s.data, s.cursor + n⟩)
  else none

/-! ### src/uuid.rs -/

def UUID_SIZE : Nat := 16

/-- src/uuid.rs `PartUUID([u8; UUID_SIZE])`: 16 raw wire bytes. -/
structure PartUUID where
  bytes : List Nat
  deriving DecidableEq

/-- The byte filter used by `TryFrom`: Rust
`(0x41..0x5A).contains(byte) || (0x61..0x7A).contains(byte)`.
Rust `Range` is half-open, so 0x5A (ASCII Z) and 0x7A (ASCII z) are excluded. -/
def guid_byte_ok (b : Nat) : Bool :=
  decide ((0x41 ≤ b ∧ b < 0x5A) ∨ (0x61 ≤ b ∧ b < 0x7A))

/-- src/uuid.rs `impl TryFrom<&[u8]> for PartUUID`: error unless the slice has
length 16 and the count of bytes passing `guid_byte_ok` is the whole length;
otherwise store the bytes unchanged. -/
def PartUUID.try_from (value : List Nat) : Except GptError PartUUID :=
  if value.length ≠ UUID_SIZE ∨ value.countP guid_byte_ok < value.length then
    .error .PartUUID
  else
    .ok ⟨value⟩

/-- One lowercase hex digit character. -/
def hex_digit (n : Nat) : Char :=
  if n < 10 then Char.ofNat (48 + n) else Char.ofNat (87 + n)

/-- Rust `{:x}` applied to a `u8`: lowercase hex with no width padding, so a
single digit for values below 16 and two digits otherwise. -/
def hex_u8 (b : Nat) : List Char :=
  if b < 16 then [hex_digit b] else [hex_digit (b / 16), hex_digit (b % 16)]

/-- src/uuid.rs `impl Display for PartUUID`: split at 8, hex the first three
groups byte-reversed (4/2/2) and the last 8 bytes in order, with hyphens. -/
def PartUUID.display (u : PartUUID) : List Char :=
  let left := u.bytes.take (UUID_SIZE / 2)
  let right := u.bytes.drop (UUID_SIZE / 2)
  hex_u8 (left.getD 3 0) ++ hex_u8 (left.getD 2 0) ++ hex_u8 (left.getD 1 0) ++
    hex_u8 (left.getD 0 0) ++ ['-'] ++
    hex_u8 (left.getD 5 0) ++ hex_u8 (left.getD 4 0) ++ ['-'] ++
    hex_u8 (left.getD 7 0) ++ hex_u8 (left.getD 6 0) ++ ['-'] ++
    hex_u8 (right.getD 0 0) ++ hex_u8 (right.getD 1 0) ++ ['-'] ++
    hex_u8 (right.getD 2 0) ++ hex_u8 (right.getD 3 0) ++ hex_u8 (right.getD 4 0) ++
    hex_u8 (right.getD 5 0) ++ hex_u8 (right.getD 6 0) ++ hex_u8 (right.getD 7 0)

/-- src/uuid.rs `validate_guid_byte`: `ch as u8` truncates the scalar value to
eight bits; the byte must be in the same half-open ASCII-letter ranges. -/
def validate_guid_byte (ch : Char) : Except GptError Nat :=
  let byte := ch.toNat % 256
  if (0x41 ≤ byte ∧ byte < 0x5A) ∨ (0x61 ≤ byte ∧ byte < 0x7A) then
    .ok byte
  else
    .error .PartUUID

/-- src/uuid.rs `impl FromStr for PartUUID`: drop hyphen characters, require
exactly `UUID_SIZE` (= 16) remaining characters, validate each character as a
byte, reorder the first eight. -/
def PartUUID.from_str (s : List Char) : Except GptError PartUUID := do
  let chars := s.filter fun ch => ch != '-'
  if chars.length ≠ UUID_SIZE then
    throw .PartUUID
  else
    let left := chars.take (UUID_SIZE / 2)
    let right := chars.drop (UUID_SIZE / 2)
    let u0 ← validate_guid_byte (left.getD 3 ' ')
    let u1 ← validate_guid_byte (left.getD 2 ' ')
    let u2 ← validate_guid_byte (left.getD 1 ' ')
    let u3 ← validate_guid_byte (left.getD 0 ' ')
    let u4 ← validate_guid_byte (left.getD 5 ' ')
    let u5 ← validate_guid_byte (left.getD 4 ' ')
    let u6 ← validate_guid_byte (left.getD 7 ' ')
    let u7 ← validate_guid_byte (left.getD 6 ' ')
    let tail ← right.mapM validate_guid_byte
    pure ⟨[u0, u1, u2, u3, u4, u5, u6, u7] ++ tail⟩

/-! ### Little-endian byte images of integers (Rust `to_le_bytes`) -/

def le2 (v : Nat) : List Nat := [v % 256, v / 2 ^ 8 % 256]

def le4 (v : Nat) : List Nat :=
  [v % 256, v / 2 ^ 8 % 256, v / 2 ^ 16 % 256, v / 2 ^ 24 % 256]

def le8 (v : Nat) : List Nat :=
  [v % 256, v / 2 ^ 8 % 256, v / 2 ^ 16 % 256, v / 2 ^ 24 % 256,
   v / 2 ^ 32 % 256, v / 2 ^ 40 % 256, v / 2 ^ 48 % 256, v / 2 ^ 56 % 256]

/-! ### src/mbr.rs -/

/-- src/mbr.rs `MbrPartRecord` (fixed arrays as lists). -/
structure MbrPartRecord where
  boot_indicator : Nat
  starting_chs : List Nat
  ostype : Nat
  ending_chs : List Nat
  starting_lba : Nat
  size_in_lba : Nat
  deriving DecidableEq

/-- Rust `#[derive(Default)]`: all-zero fields. -/
instance : Inhabited MbrPartRecord :=
  ⟨⟨0, [0, 0, 0], 0, [0, 0, 0], 0, 0⟩⟩

/-- STARTING_CHS must equal `[0x00, 0x02, 0x00]`. -/
def MbrPartRecord.check_starting_chs (starting_chs : List Nat) : Except GptError Unit :=
  if starting_chs = [0, 2, 0] then .ok () else .error .MbrPRStartingChs

/-- OSTYPE must equal 0xEE. -/
def MbrPartRecord.check_ostype (ostype : Nat) : Except GptError Unit :=
  if ostype = 0xEE then .ok () else .error .MbrPROsType

/-- ENDING_CHS must equal the same `[0x00, 0x02, 0x00]` constant; the
large-disk sentinel is NOT accepted here. -/
def MbrPartRecord.check_ending_chs (ending_chs : List Nat) : Except GptError Unit :=
  if ending_chs = [0, 2, 0] then .ok () else .error .MbrPREndingChs

/-- STARTING_LBA must equal 1. -/
def MbrPartRecord.check_starting_lba (starting_lba : Nat) : Except GptError Unit :=
  if starting_lba = 1 then .ok () else .error .MbrPRStartingLba

/-- src/mbr.rs `impl Deserialize for MbrPartRecord`. Field offsets 0 / 1 / 4 /
5 / 8 / 12; here `copy_from` stays in sync with the sequential cursor. -/
def MbrPartRecord.deserialize (data : List Nat) : DecodeResult MbrPartRecord :=
  let ltbs := LittleEndianBytes.ofSlice data
  match ltbs.parse_u8 with
  | none => .panic
  | some (boot_indicator, ltbs) =>
  match ltbs.copy_from 1 3 with
  | none => .panic
  | some (starting_chs, ltbs) =>
  match MbrPartRecord.check_starting_chs starting_chs with
  | .error e => .error e
  | .ok _ =>
  match ltbs.parse_u8 with
  | none => .panic
  | some (ostype, ltbs) =>
  match MbrPartRecord.check_ostype ostype with
  | .error e => .error e
  | .ok _ =>
  match ltbs.copy_from 5 3 with
  | none => .panic
  | some (ending_chs, ltbs) =>
  match MbrPartRecord.check_ending_chs ending_chs with
  | .error e => .error e
  | .ok _ =>
  match ltbs.parse_u32 with
  | none => .panic
  | some (starting_lba, ltbs) =>
  match MbrPartRecord.check_starting_lba starting_lba with
  | .error e => .error e
  | .ok _ =>
  match ltbs.parse_u32 with
  | none => .panic
  | some (size_in_lba, _) =>
    .ok ⟨boot_indicator, starting_chs, ostype, ending_chs, starting_lba, size_in_lba⟩

/-- src/mbr.rs `impl Serialize for MbrPartRecord`: writes the fields at the
contiguous offsets 0, 1, 4, 5, 8, 12 of a zeroed vector of length `size`
(panic when `size < 16`, since the last write needs bytes 12..16). -/
def MbrPartRecord.serialize (r : MbrPartRecord) (size : Nat) : DecodeResult (List Nat) :=
  if 16 ≤ size then
    .ok ([r.boot_indicator] ++ r.starting_chs ++ [r.ostype] ++ r.ending_chs ++
      le4 r.starting_lba ++ le4 r.size_in_lba ++ List.replicate (size - 16) 0)
  else .panic

/-- src/mbr.rs `ProtectiveMbr` (fixed arrays as lists). -/
structure ProtectiveMbr where
  boot_code : List Nat
  disk_signature : List Nat
  unknown : Nat
  part_records : List MbrPartRecord
  signature : Nat
  deriving DecidableEq

/-- DISK_SIGNATURE must be four zero bytes. -/
def ProtectiveMbr.check_disk_signature (disk_signature : List Nat) : Except GptError Unit :=
  if disk_signature = [0, 0, 0, 0] then .ok () else .error .MbrDiskSignature

/-- UNKNOWN must be zero. -/
def ProtectiveMbr.check_unknown (unknown : Nat) : Except GptError Unit :=
  if unknown = 0 then .ok () else .error .MbrUnknownNonZero

/-- Trailing SIGNATURE must equal 0xAA55. -/
def ProtectiveMbr.check_signature (signature : Nat) : Except GptError Unit :=
  if signature = 0xAA55 then .ok () else .error .MbrSignature

/-- src/mbr.rs `ProtectiveMbr::is_large_disk`: tests record 0 for the sentinel
ending CHS `FF FF FF` together with size-in-LBA 0xFFFFFFFF. -/
def ProtectiveMbr.is_large_disk (mbr : ProtectiveMbr) : Bool :=
  let first_record := mbr.part_records.getD 0 default
  decide (first_record.ending_chs = [0xFF, 0xFF, 0xFF]) &&
    decide (first_record.size_in_lba = 0xFFFFFFFF)

/-- The record loop in `ProtectiveMbr::deserialize`: iteration `index` does
`copy_from::<16>(446 + 16 * index)` and decodes the record, propagating the
first failure. -/
def readPartRecords (ltbs : LittleEndianBytes) (index : Nat) :
    Nat → DecodeResult (List MbrPartRecord × LittleEndianBytes)
  | 0 => .ok ([], ltbs)
  | n + 1 =>
    match ltbs.copy_from (446 + 16 * index) 16 with
    | none => .panic
    | some (rd, ltbs2) =>
    match MbrPartRecord.deserialize rd with
    | .panic => .panic
    | .error e => .error e
    | .ok record =>
    match readPartRecords ltbs2 (index + 1) n with
    | .panic => .panic
    | .error e => .error e
    | .ok (records, ltbs3) => .ok (record :: records, ltbs3)

/-- src/mbr.rs `impl Deserialize for ProtectiveMbr`: boot code, disk
signature, unknown, four partition records, trailing signature. Here every
`copy_from` offset coincides with the running cursor, so the reads are the
nominal wire layout. -/
def ProtectiveMbr.deserialize (data : List Nat) : DecodeResult ProtectiveMbr :=
  let ltbs := LittleEndianBytes.ofSlice data
  match ltbs.copy_from 0 440 with
  | none => .panic
  | some (boot_code, ltbs) =>
  match ltbs.copy_from 440 4 with
  | none => .panic
  | some (disk_signature, ltbs) =>
  match ProtectiveMbr.check_disk_signature disk_signature with
  | .error e => .error e
  | .ok _ =>
  match ltbs.parse_u16 with
  | none => .panic
  | some (unknown, ltbs) =>
  match ProtectiveMbr.check_unknown unknown with
  | .error e => .error e
  | .ok _ =>
  match readPartRecords ltbs 0 4 with
  | .panic => .panic
  | .error e => .error e
  | .ok (part_records, ltbs) =>
  match ltbs.parse_u16 with
  | none => .panic
  | some (signature, _) =>
  match ProtectiveMbr.check_signature signature with
  | .error e => .error e
  | .ok _ =>
    .ok ⟨boot_code, disk_signature, unknown, part_records, signature⟩

/-- Serialize the four records in order (each with PART_RECORD_SIZE = 16) and
concatenate; matches the `for_each` writes at offsets 446 + 16 * index. -/
def serializeRecords : List MbrPartRecord → DecodeResult (List Nat)
  | [] => .ok []
  | r :: rs =>
    (r.serialize 16).bind fun bytes =>
    (serializeRecords rs).bind fun rest =>
    .ok (bytes ++ rest)

/-- src/mbr.rs `impl Serialize for ProtectiveMbr`: boot code at 0..440, disk
signature at 440..444, unknown at 444..446, records at 446..510, signature at
510..512 — contiguous writes into a zeroed vector of length `size` (panic when
`size < 512`). -/
def ProtectiveMbr.serialize (mbr : ProtectiveMbr) (size : Nat) : DecodeResult (List Nat) :=
  if 512 ≤ size then
    (serializeRecords mbr.part_records).bind fun recbytes =>
    .ok (mbr.boot_code ++ mbr.disk_signature ++ le2 mbr.unknown ++ recbytes ++
      le2 mbr.signature ++ List.replicate (size - 512) 0)
  else .panic

/-! ### CRC-32 -/

/-- Modelled from the spec: the CRC-32 primitive (the external `crc` crate's
`CRC_32_ISO_HDLC`), which the spec treats as a trusted collaborator outside
this repository: reflected polynomial 0xEDB88320, initial value 0xFFFFFFFF,
final xor 0xFFFFFFFF. One bit step of the reflected algorithm. -/
def crc32_step_bit (r : Nat) : Nat :=
  if r % 2 = 1 then r / 2 ^^^ 0xEDB88320 else r / 2

/-- The 256-entry CRC-32/ISO-HDLC lookup table (as used by the `crc` crate),
packed as one numeral in base 2 ^ 32; entry `i` is `crc32_table i`. The
theorem `crc32_table_correct` below ties every entry to eight
`crc32_step_bit` steps. -/
def CRC32_TABLE_PACKED : Nat :=
  191781931866985559621651535760735696673856346713887891597305215034209910220001862487342664719235424489376241530245261416506414575980417952467156150107317449804134056257716516419112328720131160031456481696823125446157373092479201248890302123815375087579814780306302465238014574686590130429322061672822152808302584144548153239526865349163683956765968513272069020595772598256391810863039343892818777390988989484387641140032565380688427043259765038805963005205961532183550801462253286244137065761003679520439085992511812747153023950988237051482297475963397445683294857871623710491443494995887883262049609400235784616301914504614852100915093667425320505522569448617573499542922012206538552994923376999879042244179649278486539688567765080810044274289792776818305348943521622626710878290771699129542630700634428853941830696095884539637866540751870989118613898226745049792152623499445281592614081205541985653143393913751853573884386717370504757525450126884015918318526676861728753890367452704650663987939986219768247293259525516712103938189788961727671665583423846301460611946049409459047739687307696235742781609353855728368690241567495209394945831800246045226053014789794812648147087782064443448838513940732911263420963033260564074243893655912557635729647410566500980880275296686932139551470048159522442188851388406016990108609539131275206406529452392139356697170450224378375281123940131103967815428442222478921241843802992958207175757710557124203243943652857525217714700783116853765558053940146905689184430570662124197438683992896538427266983469967391681636142474704834532560212491641513769109191453119295486434232583946536159882324212284713050838488706228253289835044432504923553683244983660554148621837806481305441008673570324340892415493266799132762194172577680912505944139402575723473831901219655706623634449032441308172682686423497289006274475542693850888413509354855109888442809400614039731828034881315553093408757249612302925815547436960120920974901163960048042280802561087650605423221541518940157925281902321885507580234243366499257305095335897959299004866716736669236430206354864789374467091307116826402984124475471120986056028650311289461216452641219222976814212486281160700097480526596597474635034066400713689500662174516288603424994162219769371242282901951357062625582355266271642761008964271320703341335927815387129432557369825457457303399345465981718607329281771814792602549895867734643022520164827992332349645685502120161683551602918412611264947206183976960

def crc32_table (i : Nat) : Nat :=
  (CRC32_TABLE_PACKED >>> (32 * i)) % 4294967296

/-- Each table entry is the result of eight reflected bit steps on its index. -/
theorem crc32_table_correct : ∀ i < 256, crc32_table i = crc32_step_bit^[8] i := by
  decide

/-- Absorb one byte with the standard table step
`crc = table[(crc ^ byte) & 0xFF] ^ (crc >> 8)`. -/
def crc32_step_byte (r b : Nat) : Nat :=
  r / 2 ^ 8 ^^^ crc32_table ((r ^^^ b % 256) % 256)

/-- Modelled from the spec: `crc.checksum(bytes)` for CRC_32_ISO_HDLC. -/
def crc32 (bytes : List Nat) : Nat :=
  0xFFFFFFFF ^^^ bytes.foldl crc32_step_byte 0xFFFFFFFF

/-! ### src/hdr.rs -/

/-- src/hdr.rs `Header`. -/
structure Header where
  signature : List Nat
  revision : Nat
  header_size : Nat
  header_crc32 : Nat
  reserved : Nat
  my_lba : Nat
  alternate_lba : Nat
  first_usable_lba : Nat
  last_usable_lba : Nat
  disk_guid : PartUUID
  part_entry_lba : Nat
  num_part_entries : Nat
  part_entry_size : Nat
  crc32_part_entry_array : Nat
  deriving DecidableEq

/-- SIGNATURE = 0x5452415020494645 ("EFI PART" as a little-endian u64). -/
def Header.check_signature (signature : Nat) : Except GptError Unit :=
  if signature = 0x5452415020494645 then .ok () else .error .HdrSignature

/-- REVISION = 0x00010000. -/
def Header.check_revision (revision : Nat) : Except GptError Unit :=
  if revision = 0x00010000 then .ok () else .error .HdrRevision

/-- Size bound: `header_size >= 92 && header_size <= lba_size`, where the
caller passes `data.len()` for `lba_size`. -/
def Header.check_header_size (header_size lba_size : Nat) : Except GptError Unit :=
  if 92 ≤ header_size ∧ header_size ≤ lba_size then .ok () else .error .HdrSize

/-- Compare the stored CRC field against `crc32` of the prepared bytes. -/
def Header.check_crc32 (bytes : List Nat) (crc : Nat) : Except GptError Unit :=
  if crc = crc32 bytes then .ok () else .error .HdrCrc32

/-- Zero the four bytes at HDR_CRC32_OFFSET = 16 (bytes 16..20); equal to the
in-place `copy_from_slice` because the buffer has length ≥ 92 here. -/
def zero_crc_field (bytes : List Nat) : List Nat :=
  bytes.take 16 ++ [0, 0, 0, 0] ++ bytes.drop 20

/-- src/hdr.rs `impl Deserialize for Header`. The first `copy_from::<8>(0)`
advances the cursor to 8 although it read from absolute offset 0, so every
subsequent sequential read sits 8 bytes past its nominal field: the signature
u64 is parsed from bytes 8..16, the revision from 16..20, header_size from
20..24, the CRC field from 24..28, and the final read ends at byte 100. -/
def Header.deserialize (data : List Nat) : DecodeResult Header :=
  let ltbs := LittleEndianBytes.ofSlice data
  match ltbs.copy_from 0 8 with
  | none => .panic
  | some (signature, ltbs) =>
  match ltbs.parse_u64 with
  | none => .panic
  | some (sigval, ltbs) =>
  match Header.check_signature sigval with
  | .error e => .error e
  | .ok _ =>
  match ltbs.parse_u32 with
  | none => .panic
  | some (revision, ltbs) =>
  match Header.check_revision revision with
  | .error e => .error e
  | .ok _ =>
  match ltbs.parse_u32 with
  | none => .panic
  | some (header_size, ltbs) =>
  match Header.check_header_size header_size data.length with
  | .error e => .error e
  | .ok _ =>
  match ltbs.parse_u32 with
  | none => .panic
  | some (header_crc32, ltbs) =>
  -- `ltbs[0..header_size].to_vec()`: in range because header_size ≤ data.len()
  if header_size ≤ data.length then
  match Header.check_crc32 (zero_crc_field (data.take header_size)) header_crc32 with
  | .error e => .error e
  | .ok _ =>
  match ltbs.parse_u32 with
  | none => .panic
  | some (reserved, ltbs) =>
  match ltbs.parse_u64 with
  | none => .panic
  | some (my_lba, ltbs) =>
  match ltbs.parse_u64 with
  | none => .panic
  | some (alternate_lba, ltbs) =>
  match ltbs.parse_u64 with
  | none => .panic
  | some (first_usable_lba, ltbs) =>
  match ltbs.parse_u64 with
  | none => .panic
  | some (last_usable_lba, ltbs) =>
  match ltbs.copy_from 56 16 with
  | none => .panic
  | some (guid_bytes, ltbs) =>
  match PartUUID.try_from guid_bytes with
  | .error e => .error e
  | .ok disk_guid =>
  match ltbs.parse_u64 with
  | none => .panic
  | some (part_entry_lba, ltbs) =>
  match ltbs.parse_u32 with
  | none => .panic
  | some (num_part_entries, ltbs) =>
  match ltbs.parse_u32 with
  | none => .panic
  | some (part_entry_size, ltbs) =>
  match ltbs.parse_u32 with
  | none => .panic
  | some (crc32_part_entry_array, _) =>
    .ok ⟨signature, revision, header_size, header_crc32, reserved, my_lba,
      alternate_lba, first_usable_lba, last_usable_lba, disk_guid,
      part_entry_lba, num_part_entries, part_entry_size, crc32_part_entry_array⟩
  else .panic

/-- src/hdr.rs `impl Serialize for Header`: writes the fields at the
contiguous nominal offsets 0, 8, 12, 16, 20, 24, 32, 40, 48, 56, 72, 80, 84,
88 of a zeroed vector of length `size` (panic when `size < 92`). The CRC-32
field is written verbatim, never recomputed. -/
def Header.serialize (h : Header) (size : Nat) : DecodeResult (List Nat) :=
  if 92 ≤ size then
    .ok (h.signature ++ le4 h.revision ++ le4 h.header_size ++ le4 h.header_crc32 ++
      le4 h.reserved ++ le8 h.my_lba ++ le8 h.alternate_lba ++ le8 h.first_usable_lba ++
      le8 h.last_usable_lba ++ h.disk_guid.bytes ++ le8 h.part_entry_lba ++
      le4 h.num_part_entries ++ le4 h.part_entry_size ++ le4 h.crc32_part_entry_array ++
      List.replicate (size - 92) 0)
  else .panic

/-! ### src/entry.rs -/

/-- src/entry.rs `PartEntry` (`PartName` inlined as its 16 raw bytes). -/
structure PartEntry where
  part_type_guid : PartUUID
  part_guid : PartUUID
  starting_lba : Nat
  ending_lba : Nat
  attributes : Nat
  name : List Nat
  deriving DecidableEq

/-- src/entry.rs `impl Deserialize for PartEntry`: two GUID slices at 0..16
and 16..32 (slice indexing panics on a shorter buffer), three u64 reads at
32..56, and the 16 name bytes via `copy_from::<16>(56)` (in sync with the
cursor here). -/
def PartEntry.deserialize (data : List Nat) : DecodeResult PartEntry :=
  let ltbs := LittleEndianBytes.ofSlice data
  if 16 ≤ data.length then
  match PartUUID.try_from (subslice data 0 16) with
  | .error e => .error e
  | .ok part_type_guid =>
  let ltbs := ltbs.skip 16
  if 32 ≤ data.length then
  match PartUUID.try_from (subslice data 16 16) with
  | .error e => .error e
  | .ok part_guid =>
  let ltbs := ltbs.skip 16
  match ltbs.parse_u64 with
  | none => .panic
  | some (start_lba, ltbs) =>
  match ltbs.parse_u64 with
  | none => .panic
  | some (end_lba, ltbs) =>
  match ltbs.parse_u64 with
  | none => .panic
  | some (attrs, ltbs) =>
  match ltbs.copy_from 56 16 with
  | none => .panic
  | some (name, _) =>
    .ok ⟨part_type_guid, part_guid, start_lba, end_lba, attrs, name⟩
  else .panic
  else .panic

/-- src/entry.rs `impl Serialize for PartEntry`: contiguous writes at offsets
0, 16, 32, 40, 48, 56 into a zeroed vector of length `size` (panic when
`size < 72`); bytes 72..size stay zero. -/
def PartEntry.serialize (e : PartEntry) (size : Nat) : DecodeResult (List Nat) :=
  if 72 ≤ size then
    .ok (e.part_type_guid.bytes ++ e.part_guid.bytes ++ le8 e.starting_lba ++
      le8 e.ending_lba ++ le8 e.attributes ++ e.name ++ List.replicate (size - 72) 0)
  else .panic

/-- src/entry.rs `PartTableEntry`. -/
structure PartTableEntry where
  entries : List PartEntry
  deriving DecidableEq

/-- The decode loop of `generate_part_entries`: iteration `index` slices
`data[index * s .. index * s + s]` (panic when out of range) and decodes it,
propagating the first failure. -/
def generateLoop (data : List Nat) (s : Nat) : Nat → Nat → DecodeResult (List PartEntry)
  | _, 0 => .ok []
  | index, n + 1 =>
    if index * s + s ≤ data.length then
      match PartEntry.deserialize (subslice data (index * s) s) with
      | .panic => .panic
      | .error e => .error e
      | .ok entry =>
      match generateLoop data s (index + 1) n with
      | .panic => .panic
      | .error e => .error e
      | .ok rest => .ok (entry :: rest)
    else .panic

/-- src/entry.rs `PartTableEntry::generate_part_entries`: the entry count is
`data.len() / part_entry_size` — Rust integer division panics when
`part_entry_size` is 0 — then each `part_entry_size`-sized slice is decoded. -/
def PartTableEntry.generate_part_entries (data : List Nat) (part_entry_size : Nat) :
    DecodeResult PartTableEntry :=
  if part_entry_size = 0 then .panic
  else
    match generateLoop data part_entry_size 0 (data.length / part_entry_size) with
    | .panic => .panic
    | .error e => .error e
    | .ok entries => .ok ⟨entries⟩

/-- The encode loop of `serialize_part_entries`: each entry serialized into its
own `part_entry_size` slice, concatenated in order. -/
def PartTableEntry.serialize_part_entries (t : PartTableEntry) (part_entry_size : Nat) :
    DecodeResult (List Nat) :=
  t.entries.foldr
    (fun e acc =>
      (e.serialize part_entry_size).bind fun bytes =>
      acc.bind fun rest => .ok (bytes ++ rest))
    (.ok [])

/-! ### src/gpt.rs facade -/

/-- src/gpt.rs `LogicalBlockSize`. -/
inductive LogicalBlockSize where
  | Lb512
  | Lb4096
  deriving DecidableEq

/-- Numeric value of the discriminant (512 or 4096). -/
def LogicalBlockSize.toNat : LogicalBlockSize → Nat
  | .Lb512 => 512
  | .Lb4096 => 4096

/-- src/gpt.rs `GuidPartTable`: the configuration object holding the chosen
logical block size. -/
structure GuidPartTable where
  lbs : LogicalBlockSize

/-- src/gpt.rs `GuidPartTable::parse_header` forwards only `data` to
`Header::deserialize`; the configured `lbs` is NOT threaded into the size
check (deserialize compares `header_size` against `data.len()`). -/
def GuidPartTable.parse_header (_t : GuidPartTable) (data : List Nat) : DecodeResult Header :=
  Header.deserialize data

/-- src/gpt.rs `GuidPartTable::serialize_header`. -/
def GuidPartTable.serialize_header (t : GuidPartTable) (header : Header) : DecodeResult (List Nat) :=
  header.serialize t.lbs.toNat

/-- src/gpt.rs `GuidPartTable::parser_mbr`. -/
def GuidPartTable.parser_mbr (_t : GuidPartTable) (data : List Nat) : DecodeResult ProtectiveMbr :=
  ProtectiveMbr.deserialize data

/-- src/gpt.rs `GuidPartTable::serialize_mbr`. -/
def GuidPartTable.serialize_mbr (t : GuidPartTable) (mbr : ProtectiveMbr) : DecodeResult (List Nat) :=
  mbr.serialize t.lbs.toNat

/-- src/gpt.rs `GuidPartTable::parse_part_table`. -/
def GuidPartTable.parse_part_table (_t : GuidPartTable) (data : List Nat)
    (part_entry_size : Nat) : DecodeResult PartTableEntry :=
  PartTableEntry.generate_part_entries data part_entry_size

/-- Byte-range side condition for `&[u8]` buffers. -/
def Bytes (data : List Nat) : Prop :=
  ∀ b ∈ data, b < 256

instance (data : List Nat) : Decidable (Bytes data) :=
  inferInstanceAs (Decidable (∀ b ∈ data, b < 256))

/-- Sanity anchor for the CRC-32 model: the standard check value for
CRC-32/ISO-HDLC on the ASCII bytes of "123456789". -/
theorem crc32_check_value : crc32 [49, 50, 51, 52, 53, 54, 55, 56, 57] = 0xCBF43926 := by
  decide

/-! ### Concrete buffers used as evidence -/

/-- The eight ASCII bytes of "EFI PART". -/
def efiPartBytes : List Nat := [0x45, 0x46, 0x49, 0x20, 0x50, 0x41, 0x52, 0x54]

/-- A 92-byte buffer that satisfies every check the header decoder actually
performs: "EFI PART" at bytes 8..16 (where the decoder looks), revision at
16..20, header_size = 92 at 20..24, and at 24..28 a stored CRC-32 equal to
`crc32` of the first 92 bytes with bytes 16..20 zeroed (a fixed point of the
CRC equation, since bytes 24..28 are themselves part of the checksummed
data), then ASCII letters at 56..72 for the GUID read. -/
def b92 : List Nat :=
  List.replicate 8 0 ++ efiPartBytes ++ [0, 0, 1, 0] ++ [92, 0, 0, 0] ++
    [0x69, 0x50, 0x6C, 0x31] ++ List.replicate 28 0 ++ List.replicate 16 0x41 ++
    List.replicate 20 0

/-- The same buffer padded to 100 bytes, the least length at which the header
decoder's reads all stay in range. -/
def b100 : List Nat := b92 ++ List.replicate 8 0

/-- The header value the decoder produces from `b100`. -/
def hdr100 : Header :=
  ⟨List.replicate 8 0, 0x00010000, 92, 0x316C5069, 0, 0, 0, 0,
    0x4141414141414141, ⟨List.replicate 16 0x41⟩, 0, 0, 0, 0⟩

/-- Wire bytes of one protective-MBR partition record that satisfies every
per-record check: starting CHS 00 02 00, OS type 0xEE, ending CHS 00 02 00,
starting LBA 1. -/
def recBytes : List Nat :=
  [0, 0, 2, 0, 0xEE, 0, 2, 0, 1, 0, 0, 0, 0, 0, 0, 0]

/-- A fully valid 512-byte protective MBR buffer. -/
def m512 : List Nat :=
  List.replicate 440 0 ++ [0, 0, 0, 0] ++ [0, 0] ++ recBytes ++ recBytes ++
    recBytes ++ recBytes ++ [0x55, 0xAA]

/-- The record value decoded from `recBytes`. -/
def rec0 : MbrPartRecord := ⟨0, [0, 2, 0], 0xEE, [0, 2, 0], 1, 0⟩

/-- The protective MBR decoded from `m512`. -/
def mbr512 : ProtectiveMbr :=
  ⟨List.replicate 440 0, [0, 0, 0, 0], 0, [rec0, rec0, rec0, rec0], 0xAA55⟩

/-- A 128-byte partition entry image: two all-letter GUIDs, then u64 fields of
byte 7, a name of bytes 9, and reserved bytes 3 (ignored by decode). -/
def e128 : List Nat :=
  List.replicate 32 0x41 ++ List.replicate 24 7 ++ List.replicate 16 9 ++
    List.replicate 56 3

/-- The entry value decoded from `e128`. -/
def entry128 : PartEntry :=
  ⟨⟨List.replicate 16 0x41⟩, ⟨List.replicate 16 0x41⟩, 0x0707070707070707,
    0x0707070707070707, 0x0707070707070707, List.replicate 16 9⟩

/-! ### Claim C1 -/

/-- C1: the claim is FALSE of the code and the code contradicts its own field
layout (SIGNATURE_OFFSET = 0): because `copy_from::<8>(0)` advances the cursor
to 8, `check_signature` is applied to the u64 read from bytes 8..16. A buffer
whose first eight bytes are exactly "EFI PART" (rest zero) is rejected with
HdrSignature, while a buffer with zeros first and "EFI PART" at bytes 8..16
passes the signature check and fails only later, with HdrRevision. -/
theorem C1_signature_check_reads_bytes_8_16 :
    GuidPartTable.parse_header ⟨.Lb512⟩ (efiPartBytes ++ List.replicate 92 0) =
        .error .HdrSignature ∧
      GuidPartTable.parse_header ⟨.Lb512⟩
          (List.replicate 8 0 ++ efiPartBytes ++ List.replicate 84 0) =
        .error .HdrRevision :=
  ⟨by decide, by decide⟩

/-! ### Claim C2 -/

/-- C2: the claim is FALSE of the code: `Display` hex-encodes the 16 bytes of
a valid PartUUID into 32 non-hyphen characters, but `from_str` demands exactly
UUID_SIZE = 16 non-hyphen characters (and treats each character as one raw
byte), so `from_str (display x)` fails for every successfully constructed x;
shown here on the all-0x41 GUID. -/
theorem C2_display_from_str_never_round_trips :
    PartUUID.try_from (List.replicate 16 0x41) = .ok ⟨List.replicate 16 0x41⟩ ∧
      PartUUID.display ⟨List.replicate 16 0x41⟩ =
        "41414141-4141-4141-4141-414141414141".toList ∧
      PartUUID.from_str (PartUUID.display ⟨List.replicate 16 0x41⟩) =
        .error .PartUUID :=
  ⟨by decide, by decide, by decide⟩

/-! ### Claim C3 -/

/-- C3: the claim is FALSE of the code: `Header::deserialize` passes
`data.len()` — not the facade's configured logical block size — as the upper
bound of the size check. With L = 512 and a 100-byte buffer whose (shifted)
header_size field holds 512 = L, the claim says the size check passes, but the
code rejects with HdrSize because 512 > 100 = buffer length. -/
theorem C3_header_size_checked_against_buffer_length :
    GuidPartTable.parse_header ⟨.Lb512⟩
        (List.replicate 8 0 ++ efiPartBytes ++ [0, 0, 1, 0] ++ [0, 2, 0, 0] ++
          List.replicate 76 0) =
      .error .HdrSize := by
  decide

/-! ### Claim C4 -/

/-- C4: the claim is FALSE of the code: on `b100` the u32 stored at byte
offset 16 is 0x00010000, which differs from the CRC-32 of the first
header_size = 92 bytes with bytes 16..20 zeroed, so the claim predicts an
HdrCrc32 failure — yet decoding succeeds, because the compared value is
actually parsed from bytes 24..28 (the cursor runs 8 bytes past each nominal
field), where `b100` stores exactly that CRC-32. -/
theorem C4_crc_check_ignores_field_at_offset_16 :
    Header.deserialize b100 = .ok hdr100 ∧
      subslice b100 16 4 = [0, 0, 1, 0] ∧
      0x00010000 ≠ crc32 (zero_crc_field (b100.take 92)) ∧
      subslice b100 24 4 = le4 (crc32 (zero_crc_field (b100.take 92))) :=
  ⟨by decide, by decide, by decide, by decide⟩

/-! ### Claim C5, counterexample part -/

/-- C5 counterexample: take the successfully decoded header `hdr100`, encode
it at the logical block size 512, recompute the CRC-32 field at bytes 16..20
correctly (CRC of the first header_size = 92 bytes with that field zeroed),
and decode again: the result is an HdrSignature error, not the original
value, because decode validates the signature against bytes 8..16 where
encode wrote the revision and header-size fields. -/
theorem C5_header_round_trip_fails :
    Header.deserialize b100 = .ok hdr100 ∧
      (hdr100.serialize 512).bind (fun out =>
          Header.deserialize
            (out.take 16 ++ le4 (crc32 (zero_crc_field (out.take 92))) ++ out.drop 20)) =
        .error .HdrSignature :=
  ⟨by decide, by decide⟩

/-! ### Claim C6, counterexample part -/

/-- C6 counterexample: sixteen 0x5A bytes (ASCII uppercase Z) are all
ASCII-alphabetic, so the claim says `try_from` succeeds — but the code's
half-open ranges `(0x41..0x5A)` / `(0x61..0x7A)` exclude 0x5A, and the call
returns the PartUUID error. -/
theorem C6_uppercase_Z_rejected :
    PartUUID.try_from (List.replicate 16 0x5A) = .error .PartUUID ∧
      (List.replicate 16 0x5A).length = 16 ∧
      (∀ b ∈ List.replicate 16 0x5A, (0x41 ≤ b ∧ b ≤ 0x5A) ∨ (0x61 ≤ b ∧ b ≤ 0x7A)) :=
  ⟨by decide, by decide, by decide⟩

/-! ### Claim C7, counterexample part -/

/-- C7 counterexample: the canonical 36-character hyphenated GUID text has 32
non-hyphen characters, all of them ASCII alphabetic, so under the claim it
passes the length check and per-character validation — but `from_str`
requires exactly UUID_SIZE = 16 non-hyphen characters and rejects it. -/
theorem C7_canonical_form_rejected :
    ("AAAAAAAA-AAAA-AAAA-AAAA-AAAAAAAAAAAA".toList.filter
        (fun ch => ch != '-')).length = 32 ∧
      PartUUID.from_str "AAAAAAAA-AAAA-AAAA-AAAA-AAAAAAAAAAAA".toList =
        .error .PartUUID :=
  ⟨by decide, by decide⟩

/-! ### Claim C8, counterexample part -/

/-- C8 counterexample to the literal reading: a 16-byte all-zero buffer makes
`Header::deserialize` return (an HdrSignature error) without panicking even
though the buffer is far shorter than 100 bytes; only SUCCESSFUL returns
require at least 100 bytes. -/
theorem C8_short_buffer_returns_error_without_panic :
    Header.deserialize (List.replicate 16 0) = .error .HdrSignature ∧
      (List.replicate 16 0).length < 100 :=
  ⟨by decide, by decide⟩

/-! ### Claim C10, counterexample part -/

/-- C10 counterexample: with part_entry_size = 16 (which is > 0 and < 72) and
a buffer of exactly 16 zero bytes, `generate_part_entries` does NOT panic: the
first entry slice is 16 bytes long, so the GUID validation runs first and the
call returns the PartUUID error. -/
theorem C10_entry_size_16_errors_not_panics :
    GuidPartTable.parse_part_table ⟨.Lb512⟩ (List.replicate 16 0) 16 =
        .error .PartUUID ∧
      (List.replicate 16 0).length = 16 :=
  ⟨by decide, by decide⟩

/-! ### Byte accessors at fixed offsets and cursor-op lemmas -/

def u16at (data : List Nat) (i : Nat) : Nat :=
  (data.getD (i + 1) 0) <<< 8 ||| data.getD i 0

def u32at (data : List Nat) (i : Nat) : Nat :=
  (data.getD (i + 3) 0) <<< 24 ||| (data.getD (i + 2) 0) <<< 16 |||
    (data.getD (i + 1) 0) <<< 8 ||| data.getD i 0

def u64at (data : List Nat) (i : Nat) : Nat :=
  (data.getD (i + 7) 0) <<< 56 ||| (data.getD (i + 6) 0) <<< 48 |||
    (data.getD (i + 5) 0) <<< 40 ||| (data.getD (i + 4) 0) <<< 32 |||
    (data.getD (i + 3) 0) <<< 24 ||| (data.getD (i + 2) 0) <<< 16 |||
    (data.getD (i + 1) 0) <<< 8 ||| data.getD i 0

theorem parse_u8_eval {data : List Nat} {c : Nat} (h : c < data.length) :
    LittleEndianBytes.parse_u8 ⟨data, c⟩ = some (data.getD c 0, ⟨data, c + 1⟩) := by
  unfold LittleEndianBytes.parse_u8
  exact if_pos h

theorem parse_u16_eval {data : List Nat} {c : Nat} (h : c + 1 < data.length) :
    LittleEndianBytes.parse_u16 ⟨data, c⟩ = some (u16at data c, ⟨data, c + 2⟩) := by
  unfold LittleEndianBytes.parse_u16 u16at
  exact if_pos h

theorem parse_u32_eval {data : List Nat} {c : Nat} (h : c + 3 < data.length) :
    LittleEndianBytes.parse_u32 ⟨data, c⟩ = some (u32at data c, ⟨data, c + 4⟩) := by
  unfold LittleEndianBytes.parse_u32 u32at
  exact if_pos h

theorem parse_u64_eval {data : List Nat} {c : Nat} (h : c + 7 < data.length) :
    LittleEndianBytes.parse_u64 ⟨data, c⟩ = some (u64at data c, ⟨data, c + 8⟩) := by
  unfold LittleEndianBytes.parse_u64 u64at
  exact if_pos h

theorem copy_from_eval {data : List Nat} {c : Nat} {offset n : Nat}
    (h : offset + n ≤ data.length) :
    LittleEndianBytes.copy_from ⟨data, c⟩ offset n =
      some (subslice data offset n, ⟨data, c + n⟩) := by
  unfold LittleEndianBytes.copy_from
  exact if_pos h

theorem subslice_length {data : List Nat} {offset n : Nat} (h : offset + n ≤ data.length) :
    (subslice data offset n).length = n := by
  unfold subslice
  rw [List.length_take, List.length_drop]
  omega





theorem ite_ok_unit_iff {c : Prop} [Decidable c] {e : GptError} {u : Unit} :
    (if c then Except.ok () else Except.error e : Except GptError Unit) = .ok u ↔ c := by
  split <;> simp_all

theorem parse_u8_some_inv {data : List Nat} {c v : Nat} {t : LittleEndianBytes}
    (h : LittleEndianBytes.parse_u8 ⟨data, c⟩ = some (v, t)) :
    c < data.length ∧ v = data.getD c 0 ∧ t = ⟨data, c + 1⟩ := by
  unfold LittleEndianBytes.parse_u8 at h
  simp only [Option.ite_none_right_eq_some, Option.some.injEq, Prod.mk.injEq] at h
  exact ⟨h.1, h.2.1.symm, h.2.2.symm⟩

theorem parse_u16_some_inv {data : List Nat} {c v : Nat} {t : LittleEndianBytes}
    (h : LittleEndianBytes.parse_u16 ⟨data, c⟩ = some (v, t)) :
    c + 1 < data.length ∧ v = u16at data c ∧ t = ⟨data, c + 2⟩ := by
  unfold LittleEndianBytes.parse_u16 at h
  unfold u16at
  simp only [Option.ite_none_right_eq_some, Option.some.injEq, Prod.mk.injEq] at h
  exact ⟨h.1, h.2.1.symm, h.2.2.symm⟩

theorem parse_u32_some_inv {data : List Nat} {c v : Nat} {t : LittleEndianBytes}
    (h : LittleEndianBytes.parse_u32 ⟨data, c⟩ = some (v, t)) :
    c + 3 < data.length ∧ v = u32at data c ∧ t = ⟨data, c + 4⟩ := by
  unfold LittleEndianBytes.parse_u32 at h
  unfold u32at
  simp only [Option.ite_none_right_eq_some, Option.some.injEq, Prod.mk.injEq] at h
  exact ⟨h.1, h.2.1.symm, h.2.2.symm⟩

theorem parse_u64_some_inv {data : List Nat} {c v : Nat} {t : LittleEndianBytes}
    (h : LittleEndianBytes.parse_u64 ⟨data, c⟩ = some (v, t)) :
    c + 7 < data.length ∧ v = u64at data c ∧ t = ⟨data, c + 8⟩ := by
  unfold LittleEndianBytes.parse_u64 at h
  unfold u64at
  simp only [Option.ite_none_right_eq_some, Option.some.injEq, Prod.mk.injEq] at h
  exact ⟨h.1, h.2.1.symm, h.2.2.symm⟩

theorem copy_from_some_inv {data : List Nat} {c offset n : Nat} {v : List Nat}
    {t : LittleEndianBytes}
    (h : LittleEndianBytes.copy_from ⟨data, c⟩ offset n = some (v, t)) :
    offset + n ≤ data.length ∧ v = subslice data offset n ∧ t = ⟨data, c + n⟩ := by
  unfold LittleEndianBytes.copy_from at h
  simp only [Option.ite_none_right_eq_some, Option.some.injEq, Prod.mk.injEq] at h
  exact ⟨h.1, h.2.1.symm, h.2.2.symm⟩

theorem check_starting_chs_ok {l : List Nat} {u : Unit}
    (h : MbrPartRecord.check_starting_chs l = .ok u) : l = [0, 2, 0] := by
  unfold MbrPartRecord.check_starting_chs at h
  exact (ite_ok_unit_iff).mp h

theorem check_ostype_ok {b : Nat} {u : Unit}
    (h : MbrPartRecord.check_ostype b = .ok u) : b = 0xEE := by
  unfold MbrPartRecord.check_ostype at h
  exact (ite_ok_unit_iff).mp h

theorem check_ending_chs_ok {l : List Nat} {u : Unit}
    (h : MbrPartRecord.check_ending_chs l = .ok u) : l = [0, 2, 0] := by
  unfold MbrPartRecord.check_ending_chs at h
  exact (ite_ok_unit_iff).mp h

theorem check_starting_lba_ok {b : Nat} {u : Unit}
    (h : MbrPartRecord.check_starting_lba b = .ok u) : b = 1 := by
  unfold MbrPartRecord.check_starting_lba at h
  exact (ite_ok_unit_iff).mp h

/-- Characterization of successful record decode. -/
theorem record_deserialize_ok_iff {data : List Nat} {r : MbrPartRecord} :
    MbrPartRecord.deserialize data = .ok r ↔
      16 ≤ data.length ∧
      subslice data 1 3 = [0, 2, 0] ∧ data.getD 4 0 = 0xEE ∧
      subslice data 5 3 = [0, 2, 0] ∧ u32at data 8 = 1 ∧
      r = ⟨data.getD 0 0, [0, 2, 0], 0xEE, [0, 2, 0], 1, u32at data 12⟩ := by
  constructor
  · intro h
    simp only [MbrPartRecord.deserialize, LittleEndianBytes.ofSlice] at h
    repeat' split at h
    all_goals try exact DecodeResult.noConfusion h
    rename_i x1 a1 s1 e1 x2 a2 s2 e2 x3 q3 e3 x4 a4 s4 e4 x5 q5 e5 x6 a6 s6 e6 x7 q7 e7
      x8 a8 s8 e8 x9 q9 e9 x10 a10 s10 e10
    injection h with hr
    obtain ⟨g1, hv1, hs1⟩ := parse_u8_some_inv e1
    subst hv1 hs1
    obtain ⟨g2, hv2, hs2⟩ := copy_from_some_inv e2
    subst hv2 hs2
    have hc2 := check_starting_chs_ok e3
    obtain ⟨g4, hv4, hs4⟩ := parse_u8_some_inv e4
    subst hv4 hs4
    have hc5 := check_ostype_ok e5
    obtain ⟨g6, hv6, hs6⟩ := copy_from_some_inv e6
    subst hv6 hs6
    have hc7 := check_ending_chs_ok e7
    obtain ⟨g8, hv8, hs8⟩ := parse_u32_some_inv e8
    subst hv8 hs8
    have hc9 := check_starting_lba_ok e9
    obtain ⟨g10, hv10, hs10⟩ := parse_u32_some_inv e10
    subst hv10 hs10
    subst hr
    norm_num at *
    exact ⟨by omega, hc2, hc5, hc7, hc9, by simp [hc2, hc5, hc7, hc9]⟩
  · rintro ⟨hlen, hchs, hos, hechs, hslba, hr⟩
    subst hr
    simp (disch := omega) only [MbrPartRecord.deserialize, LittleEndianBytes.ofSlice,
      parse_u8_eval, parse_u32_eval, copy_from_eval]
    simp only [MbrPartRecord.check_starting_chs, MbrPartRecord.check_ostype,
      MbrPartRecord.check_ending_chs, MbrPartRecord.check_starting_lba,
      hchs, hos, hechs, hslba, if_pos]


theorem check_disk_signature_ok {l : List Nat} {u : Unit}
    (h : ProtectiveMbr.check_disk_signature l = .ok u) : l = [0, 0, 0, 0] := by
  unfold ProtectiveMbr.check_disk_signature at h
  exact (ite_ok_unit_iff).mp h

theorem check_unknown_ok {b : Nat} {u : Unit}
    (h : ProtectiveMbr.check_unknown b = .ok u) : b = 0 := by
  unfold ProtectiveMbr.check_unknown at h
  exact (ite_ok_unit_iff).mp h

theorem mbr_check_signature_ok {b : Nat} {u : Unit}
    (h : ProtectiveMbr.check_signature b = .ok u) : b = 0xAA55 := by
  unfold ProtectiveMbr.check_signature at h
  exact (ite_ok_unit_iff).mp h

theorem readPartRecords_succ_inv {data : List Nat} {c i n : Nat}
    {records : List MbrPartRecord} {t : LittleEndianBytes}
    (h : readPartRecords ⟨data, c⟩ i (n + 1) = .ok (records, t)) :
    ∃ r rest, records = r :: rest ∧ 446 + 16 * i + 16 ≤ data.length ∧
      MbrPartRecord.deserialize (subslice data (446 + 16 * i) 16) = .ok r ∧
      readPartRecords ⟨data, c + 16⟩ (i + 1) n = .ok (rest, t) := by
  simp only [readPartRecords] at h
  rcases e1 : (⟨data, c⟩ : LittleEndianBytes).copy_from (446 + 16 * i) 16 with _ | ⟨v1, s1⟩
  · simp only [e1] at h
    exact DecodeResult.noConfusion h
  simp only [e1] at h
  obtain ⟨g1, hv1, hs1⟩ := copy_from_some_inv e1
  subst hv1 hs1
  rcases e2 : MbrPartRecord.deserialize (subslice data (446 + 16 * i) 16) with _ | e | r
  · simp only [e2] at h
    exact DecodeResult.noConfusion h
  · simp only [e2] at h
    exact DecodeResult.noConfusion h
  simp only [e2] at h
  rcases e3 : readPartRecords ⟨data, c + 16⟩ (i + 1) n with _ | e | ⟨rest, t2⟩
  · simp only [e3] at h
    exact DecodeResult.noConfusion h
  · simp only [e3] at h
    exact DecodeResult.noConfusion h
  simp only [e3] at h
  injection h with h2
  obtain ⟨h1, ht⟩ := Prod.ext_iff.mp h2
  have hrec : records = r :: rest := h1.symm
  have ht2 : t = t2 := ht.symm
  subst hrec ht2
  exact ⟨r, rest, rfl, by omega, rfl, rfl⟩

theorem readPartRecords_eval_succ {data : List Nat} {c i n : Nat} {r : MbrPartRecord}
    {rest : List MbrPartRecord} {t : LittleEndianBytes}
    (hb : 446 + 16 * i + 16 ≤ data.length)
    (hr : MbrPartRecord.deserialize (subslice data (446 + 16 * i) 16) = .ok r)
    (hrest : readPartRecords ⟨data, c + 16⟩ (i + 1) n = .ok (rest, t)) :
    readPartRecords ⟨data, c⟩ i (n + 1) = .ok (r :: rest, t) := by
  simp only [readPartRecords, copy_from_eval hb, hr, hrest]

/-- Characterization of successful protective-MBR decode. -/
theorem mbr_deserialize_ok_iff {data : List Nat} {x : ProtectiveMbr} :
    ProtectiveMbr.deserialize data = .ok x ↔
      512 ≤ data.length ∧
      subslice data 440 4 = [0, 0, 0, 0] ∧ u16at data 444 = 0 ∧
      u16at data 510 = 0xAA55 ∧
      (∃ r0 r1 r2 r3 : MbrPartRecord,
        MbrPartRecord.deserialize (subslice data 446 16) = .ok r0 ∧
        MbrPartRecord.deserialize (subslice data 462 16) = .ok r1 ∧
        MbrPartRecord.deserialize (subslice data 478 16) = .ok r2 ∧
        MbrPartRecord.deserialize (subslice data 494 16) = .ok r3 ∧
        x = ⟨subslice data 0 440, [0, 0, 0, 0], 0, [r0, r1, r2, r3], 0xAA55⟩) := by
  constructor
  · intro h
    simp only [ProtectiveMbr.deserialize, LittleEndianBytes.ofSlice] at h
    rcases e1 : (⟨data, 0⟩ : LittleEndianBytes).copy_from 0 440 with _ | ⟨v1, s1⟩
    · simp only [e1] at h
      exact DecodeResult.noConfusion h
    simp only [e1] at h
    obtain ⟨g1, hv1, hs1⟩ := copy_from_some_inv e1
    subst hv1 hs1
    rcases e2 : (⟨data, 0 + 440⟩ : LittleEndianBytes).copy_from 440 4 with _ | ⟨v2, s2⟩
    · simp only [e2] at h
      exact DecodeResult.noConfusion h
    simp only [e2] at h
    obtain ⟨g2, hv2, hs2⟩ := copy_from_some_inv e2
    subst hv2 hs2
    rcases e3 : ProtectiveMbr.check_disk_signature (subslice data 440 4) with e | u3
    · simp only [e3] at h
      exact DecodeResult.noConfusion h
    simp only [e3] at h
    have hds := check_disk_signature_ok e3
    rcases e4 : (⟨data, 0 + 440 + 4⟩ : LittleEndianBytes).parse_u16 with _ | ⟨v4, s4⟩
    · simp only [e4] at h
      exact DecodeResult.noConfusion h
    simp only [e4] at h
    obtain ⟨g4, hv4, hs4⟩ := parse_u16_some_inv e4
    subst hv4 hs4
    rcases e5 : ProtectiveMbr.check_unknown (u16at data (0 + 440 + 4)) with e | u5
    · simp only [e5] at h
      exact DecodeResult.noConfusion h
    simp only [e5] at h
    have hunk := check_unknown_ok e5
    rcases e6 : readPartRecords ⟨data, 0 + 440 + 4 + 2⟩ 0 4 with _ | e | ⟨recs, s6⟩
    · simp only [e6] at h
      exact DecodeResult.noConfusion h
    · simp only [e6] at h
      exact DecodeResult.noConfusion h
    simp only [e6] at h
    obtain ⟨r0, rest0, hrec0, gb0, hd0, e6a⟩ := readPartRecords_succ_inv e6
    obtain ⟨r1, rest1, hrec1, gb1, hd1, e6b⟩ := readPartRecords_succ_inv e6a
    obtain ⟨r2, rest2, hrec2, gb2, hd2, e6c⟩ := readPartRecords_succ_inv e6b
    obtain ⟨r3, rest3, hrec3, gb3, hd3, e6d⟩ := readPartRecords_succ_inv e6c
    simp only [readPartRecords] at e6d
    injection e6d with e6e
    obtain ⟨hrest3, hs6⟩ := Prod.ext_iff.mp e6e
    have hrest3x : rest3 = [] := hrest3.symm
    have hs6x : s6 = ⟨data, 0 + 440 + 4 + 2 + 16 + 16 + 16 + 16⟩ := hs6.symm
    subst hrest3x hs6x hrec3 hrec2 hrec1 hrec0
    rcases e7 : (⟨data, 0 + 440 + 4 + 2 + 16 + 16 + 16 + 16⟩ : LittleEndianBytes).parse_u16
      with _ | ⟨v7, s7⟩
    · simp only [e7] at h
      exact DecodeResult.noConfusion h
    simp only [e7] at h
    obtain ⟨g7, hv7, hs7⟩ := parse_u16_some_inv e7
    subst hv7 hs7
    rcases e8 : ProtectiveMbr.check_signature
        (u16at data (0 + 440 + 4 + 2 + 16 + 16 + 16 + 16)) with e | u8
    · simp only [e8] at h
      exact DecodeResult.noConfusion h
    simp only [e8] at h
    have hsig := mbr_check_signature_ok e8
    injection h with hx
    subst hx
    norm_num at hds hunk hsig hd0 hd1 hd2 hd3 g7
    refine ⟨by omega, hds, hunk, hsig, ⟨r0, r1, r2, r3, hd0, hd1, hd2, hd3, ?_⟩⟩
    all_goals norm_num [hds, hunk, hsig]
  · rintro ⟨hlen, hds, hunk, hsig, r0, r1, r2, r3, hd0, hd1, hd2, hd3, hx⟩
    subst hx
    have h446 : readPartRecords ⟨data, 446⟩ 0 4 =
        .ok ([r0, r1, r2, r3], ⟨data, 510⟩) := by
      apply readPartRecords_eval_succ (by omega) (by norm_num; exact hd0)
      apply readPartRecords_eval_succ (by omega) (by norm_num; exact hd1)
      apply readPartRecords_eval_succ (by omega) (by norm_num; exact hd2)
      show readPartRecords ⟨data, 446 + 16 + 16 + 16⟩ 3 (0 + 1) = _
      apply readPartRecords_eval_succ (by omega) (by norm_num; exact hd3)
      show readPartRecords ⟨data, 446 + 16 + 16 + 16 + 16⟩ 4 0 = _
      simp only [readPartRecords]
    simp (disch := omega) only [ProtectiveMbr.deserialize, LittleEndianBytes.ofSlice,
      parse_u16_eval, copy_from_eval]
    norm_num
    simp (disch := omega) only [h446, hds, hunk, hsig,
      ProtectiveMbr.check_disk_signature, ProtectiveMbr.check_unknown,
      ProtectiveMbr.check_signature, parse_u16_eval, if_pos]
    norm_num [hsig]

theorem hdr_check_signature_ok {v : Nat} {u : Unit}
    (h : Header.check_signature v = .ok u) : v = 0x5452415020494645 := by
  unfold Header.check_signature at h
  exact (ite_ok_unit_iff).mp h

theorem hdr_check_revision_ok {v : Nat} {u : Unit}
    (h : Header.check_revision v = .ok u) : v = 0x00010000 := by
  unfold Header.check_revision at h
  exact (ite_ok_unit_iff).mp h

theorem hdr_check_header_size_ok {a b : Nat} {u : Unit}
    (h : Header.check_header_size a b = .ok u) : 92 ≤ a ∧ a ≤ b := by
  unfold Header.check_header_size at h
  exact (ite_ok_unit_iff).mp h

theorem hdr_check_crc32_ok {bytes : List Nat} {v : Nat} {u : Unit}
    (h : Header.check_crc32 bytes v = .ok u) : v = crc32 bytes := by
  unfold Header.check_crc32 at h
  exact (ite_ok_unit_iff).mp h

theorem try_from_ok_iff {l : List Nat} {u : PartUUID} :
    PartUUID.try_from l = .ok u ↔
      l.length = 16 ∧ l.countP guid_byte_ok = l.length ∧ u = ⟨l⟩ := by
  unfold PartUUID.try_from UUID_SIZE
  have hle := List.countP_le_length guid_byte_ok (l := l)
  split
  · constructor
    · intro h
      exact absurd h (by simp)
    · intro ⟨h1, h2, h3⟩
      omega
  · constructor
    · intro h
      injection h with h2
      subst h2
      constructor
      · omega
      · exact ⟨by omega, rfl⟩
    · intro ⟨h1, h2, h3⟩
      subst h3
      rfl

/-- Characterization of successful header decode: all sequential reads sit 8
bytes past their nominal field offsets. -/
theorem header_deserialize_ok_iff {data : List Nat} {x : Header} :
    Header.deserialize data = .ok x ↔
      100 ≤ data.length ∧
      u64at data 8 = 0x5452415020494645 ∧
      u32at data 16 = 0x00010000 ∧
      92 ≤ u32at data 20 ∧ u32at data 20 ≤ data.length ∧
      u32at data 24 = crc32 (zero_crc_field (data.take (u32at data 20))) ∧
      PartUUID.try_from (subslice data 56 16) = .ok ⟨subslice data 56 16⟩ ∧
      x = ⟨subslice data 0 8, 0x00010000, u32at data 20, u32at data 24, u32at data 28,
        u64at data 32, u64at data 40, u64at data 48, u64at data 56,
        ⟨subslice data 56 16⟩, u64at data 80, u32at data 88, u32at data 92,
        u32at data 96⟩ := by
  constructor
  · intro h
    simp only [Header.deserialize, LittleEndianBytes.ofSlice] at h
    rcases e1 : (⟨data, 0⟩ : LittleEndianBytes).copy_from 0 8 with _ | ⟨v1, s1⟩
    · simp only [e1] at h
      exact DecodeResult.noConfusion h
    simp only [e1] at h
    obtain ⟨g1, hv1, hs1⟩ := copy_from_some_inv e1
    subst hv1 hs1
    rcases e2 : (⟨data, 0 + 8⟩ : LittleEndianBytes).parse_u64 with _ | ⟨v2, s2⟩
    · simp only [e2] at h
      exact DecodeResult.noConfusion h
    simp only [e2] at h
    obtain ⟨g2, hv2, hs2⟩ := parse_u64_some_inv e2
    subst hv2 hs2
    rcases e3 : Header.check_signature (u64at data (0 + 8)) with e | u3
    · simp only [e3] at h
      exact DecodeResult.noConfusion h
    simp only [e3] at h
    have hsig := hdr_check_signature_ok e3
    rcases e4 : (⟨data, 0 + 8 + 8⟩ : LittleEndianBytes).parse_u32 with _ | ⟨v4, s4⟩
    · simp only [e4] at h
      exact DecodeResult.noConfusion h
    simp only [e4] at h
    obtain ⟨g4, hv4, hs4⟩ := parse_u32_some_inv e4
    subst hv4 hs4
    rcases e5 : Header.check_revision (u32at data (0 + 8 + 8)) with e | u5
    · simp only [e5] at h
      exact DecodeResult.noConfusion h
    simp only [e5] at h
    have hrev := hdr_check_revision_ok e5
    rcases e6 : (⟨data, 0 + 8 + 8 + 4⟩ : LittleEndianBytes).parse_u32 with _ | ⟨v6, s6⟩
    · simp only [e6] at h
      exact DecodeResult.noConfusion h
    simp only [e6] at h
    obtain ⟨g6, hv6, hs6⟩ := parse_u32_some_inv e6
    subst hv6 hs6
    rcases e7 : Header.check_header_size (u32at data (0 + 8 + 8 + 4)) data.length with e | u7
    · simp only [e7] at h
      exact DecodeResult.noConfusion h
    simp only [e7] at h
    have hhs := hdr_check_header_size_ok e7
    rcases e8 : (⟨data, 0 + 8 + 8 + 4 + 4⟩ : LittleEndianBytes).parse_u32 with _ | ⟨v8, s8⟩
    · simp only [e8] at h
      exact DecodeResult.noConfusion h
    simp only [e8] at h
    obtain ⟨g8, hv8, hs8⟩ := parse_u32_some_inv e8
    subst hv8 hs8
    rw [if_pos hhs.2] at h
    rcases e9 : Header.check_crc32 (zero_crc_field (data.take (u32at data (0 + 8 + 8 + 4))))
        (u32at data (0 + 8 + 8 + 4 + 4)) with e | u9
    · simp only [e9] at h
      exact DecodeResult.noConfusion h
    simp only [e9] at h
    have hcrc := hdr_check_crc32_ok e9
    rcases e10 : (⟨data, 0 + 8 + 8 + 4 + 4 + 4⟩ : LittleEndianBytes).parse_u32 with _ | ⟨v10, s10⟩
    · simp only [e10] at h
      exact DecodeResult.noConfusion h
    simp only [e10] at h
    obtain ⟨g10, hv10, hs10⟩ := parse_u32_some_inv e10
    subst hv10 hs10
    rcases e11 : (⟨data, 0 + 8 + 8 + 4 + 4 + 4 + 4⟩ : LittleEndianBytes).parse_u64
      with _ | ⟨v11, s11⟩
    · simp only [e11] at h
      exact DecodeResult.noConfusion h
    simp only [e11] at h
    obtain ⟨g11, hv11, hs11⟩ := parse_u64_some_inv e11
    subst hv11 hs11
    rcases e12 : (⟨data, 0 + 8 + 8 + 4 + 4 + 4 + 4 + 8⟩ : LittleEndianBytes).parse_u64
      with _ | ⟨v12, s12⟩
    · simp only [e12] at h
      exact DecodeResult.noConfusion h
    simp only [e12] at h
    obtain ⟨g12, hv12, hs12⟩ := parse_u64_some_inv e12
    subst hv12 hs12
    rcases e13 : (⟨data, 0 + 8 + 8 + 4 + 4 + 4 + 4 + 8 + 8⟩ : LittleEndianBytes).parse_u64
      with _ | ⟨v13, s13⟩
    · simp only [e13] at h
      exact DecodeResult.noConfusion h
    simp only [e13] at h
    obtain ⟨g13, hv13, hs13⟩ := parse_u64_some_inv e13
    subst hv13 hs13
    rcases e14 : (⟨data, 0 + 8 + 8 + 4 + 4 + 4 + 4 + 8 + 8 + 8⟩ : LittleEndianBytes).parse_u64
      with _ | ⟨v14, s14⟩
    · simp only [e14] at h
      exact DecodeResult.noConfusion h
    simp only [e14] at h
    obtain ⟨g14, hv14, hs14⟩ := parse_u64_some_inv e14
    subst hv14 hs14
    rcases e15 : (⟨data, 0 + 8 + 8 + 4 + 4 + 4 + 4 + 8 + 8 + 8 + 8⟩ :
        LittleEndianBytes).copy_from 56 16 with _ | ⟨v15, s15⟩
    · simp only [e15] at h
      exact DecodeResult.noConfusion h
    simp only [e15] at h
    obtain ⟨g15, hv15, hs15⟩ := copy_from_some_inv e15
    subst hv15 hs15
    rcases e16 : PartUUID.try_from (subslice data 56 16) with e | u16v
    · simp only [e16] at h
      exact DecodeResult.noConfusion h
    simp only [e16] at h
    obtain ⟨hg1, hg2, hg3⟩ := try_from_ok_iff.mp e16
    subst hg3
    rcases e17 : (⟨data, 0 + 8 + 8 + 4 + 4 + 4 + 4 + 8 + 8 + 8 + 8 + 16⟩ :
        LittleEndianBytes).parse_u64 with _ | ⟨v17, s17⟩
    · simp only [e17] at h
      exact DecodeResult.noConfusion h
    simp only [e17] at h
    obtain ⟨g17, hv17, hs17⟩ := parse_u64_some_inv e17
    subst hv17 hs17
    rcases e18 : (⟨data, 0 + 8 + 8 + 4 + 4 + 4 + 4 + 8 + 8 + 8 + 8 + 16 + 8⟩ :
        LittleEndianBytes).parse_u32 with _ | ⟨v18, s18⟩
    · simp only [e18] at h
      exact DecodeResult.noConfusion h
    simp only [e18] at h
    obtain ⟨g18, hv18, hs18⟩ := parse_u32_some_inv e18
    subst hv18 hs18
    rcases e19 : (⟨data, 0 + 8 + 8 + 4 + 4 + 4 + 4 + 8 + 8 + 8 + 8 + 16 + 8 + 4⟩ :
        LittleEndianBytes).parse_u32 with _ | ⟨v19, s19⟩
    · simp only [e19] at h
      exact DecodeResult.noConfusion h
    simp only [e19] at h
    obtain ⟨g19, hv19, hs19⟩ := parse_u32_some_inv e19
    subst hv19 hs19
    rcases e20 : (⟨data, 0 + 8 + 8 + 4 + 4 + 4 + 4 + 8 + 8 + 8 + 8 + 16 + 8 + 4 + 4⟩ :
        LittleEndianBytes).parse_u32 with _ | ⟨v20, s20⟩
    · simp only [e20] at h
      exact DecodeResult.noConfusion h
    simp only [e20] at h
    obtain ⟨g20, hv20, hs20⟩ := parse_u32_some_inv e20
    subst hv20 hs20
    injection h with hx
    subst hx
    norm_num at hsig hrev hhs hcrc g20
    refine ⟨by omega, hsig, hrev, hhs.1, hhs.2, ?_, ?_, ?_⟩
    · exact hcrc
    · rfl
    · norm_num [hrev]
  · rintro ⟨hlen, hsig, hrev, hhs1, hhs2, hcrc, hguid, hx⟩
    subst hx
    simp (disch := omega) only [Header.deserialize, LittleEndianBytes.ofSlice,
      parse_u32_eval, parse_u64_eval, copy_from_eval]
    norm_num
    simp only [Header.check_signature, Header.check_revision, Header.check_header_size,
      Header.check_crc32, hsig, hrev, hcrc, hguid, if_pos, if_true]
    rw [if_pos (by omega), if_pos (by omega)]

/-- Characterization of successful partition-entry decode. -/
theorem entry_deserialize_ok_iff {data : List Nat} {x : PartEntry} :
    PartEntry.deserialize data = .ok x ↔
      72 ≤ data.length ∧
      PartUUID.try_from (subslice data 0 16) = .ok ⟨subslice data 0 16⟩ ∧
      PartUUID.try_from (subslice data 16 16) = .ok ⟨subslice data 16 16⟩ ∧
      x = ⟨⟨subslice data 0 16⟩, ⟨subslice data 16 16⟩, u64at data 32, u64at data 40,
        u64at data 48, subslice data 56 16⟩ := by
  constructor
  · intro h
    simp only [PartEntry.deserialize, LittleEndianBytes.ofSlice, LittleEndianBytes.skip] at h
    by_cases hA : 16 ≤ data.length
    rotate_left
    · rw [if_neg hA] at h
      exact DecodeResult.noConfusion h
    rw [if_pos hA] at h
    rcases e1 : PartUUID.try_from (subslice data 0 16) with e | u1
    · simp only [e1] at h
      exact DecodeResult.noConfusion h
    simp only [e1] at h
    obtain ⟨hA1, hA2, hA3⟩ := try_from_ok_iff.mp e1
    subst hA3
    by_cases hB : 32 ≤ data.length
    rotate_left
    · rw [if_neg hB] at h
      exact DecodeResult.noConfusion h
    rw [if_pos hB] at h
    rcases e2 : PartUUID.try_from (subslice data 16 16) with e | u2
    · simp only [e2] at h
      exact DecodeResult.noConfusion h
    simp only [e2] at h
    obtain ⟨hB1, hB2, hB3⟩ := try_from_ok_iff.mp e2
    subst hB3
    rcases e3 : (⟨data, 0 + 16 + 16⟩ : LittleEndianBytes).parse_u64 with _ | ⟨v3, s3⟩
    · simp only [e3] at h
      exact DecodeResult.noConfusion h
    simp only [e3] at h
    obtain ⟨g3, hv3, hs3⟩ := parse_u64_some_inv e3
    subst hv3 hs3
    rcases e4 : (⟨data, 0 + 16 + 16 + 8⟩ : LittleEndianBytes).parse_u64 with _ | ⟨v4, s4⟩
    · simp only [e4] at h
      exact DecodeResult.noConfusion h
    simp only [e4] at h
    obtain ⟨g4, hv4, hs4⟩ := parse_u64_some_inv e4
    subst hv4 hs4
    rcases e5 : (⟨data, 0 + 16 + 16 + 8 + 8⟩ : LittleEndianBytes).parse_u64 with _ | ⟨v5, s5⟩
    · simp only [e5] at h
      exact DecodeResult.noConfusion h
    simp only [e5] at h
    obtain ⟨g5, hv5, hs5⟩ := parse_u64_some_inv e5
    subst hv5 hs5
    rcases e6 : (⟨data, 0 + 16 + 16 + 8 + 8 + 8⟩ : LittleEndianBytes).copy_from 56 16
      with _ | ⟨v6, s6⟩
    · simp only [e6] at h
      exact DecodeResult.noConfusion h
    simp only [e6] at h
    obtain ⟨g6, hv6, hs6⟩ := copy_from_some_inv e6
    subst hv6 hs6
    injection h with hx
    subst hx
    norm_num
    omega
  · rintro ⟨hlen, hg1, hg2, hx⟩
    subst hx
    simp only [PartEntry.deserialize, LittleEndianBytes.ofSlice, LittleEndianBytes.skip]
    rw [if_pos (by omega : (16 : Nat) ≤ data.length)]
    simp only [hg1]
    rw [if_pos (by omega : (32 : Nat) ≤ data.length)]
    simp only [hg2]
    simp (disch := omega) only [parse_u64_eval, copy_from_eval]

/-! ### Claim C9 -/

/-- C9: every successfully decoded protective MBR answers false to
`is_large_disk`: per-record validation forces each record's ending CHS to be
00 02 00, so record 0 can never carry the FF FF FF sentinel. -/
theorem C9_decoded_mbr_never_large_disk (data : List Nat) (x : ProtectiveMbr)
    (h : ProtectiveMbr.deserialize data = .ok x) : x.is_large_disk = false := by
  obtain ⟨-, -, -, -, r0, r1, r2, r3, hd0, -, -, -, hx⟩ := mbr_deserialize_ok_iff.mp h
  obtain ⟨-, -, -, -, -, hr0⟩ := record_deserialize_ok_iff.mp hd0
  subst hx hr0
  simp [ProtectiveMbr.is_large_disk]

/-- C9 witness: a concrete fully valid 512-byte protective MBR decodes to
`mbr512`, and the theorem yields `is_large_disk = false` there. -/
theorem C9_decoded_mbr_never_large_disk_witness : mbr512.is_large_disk = false :=
  C9_decoded_mbr_never_large_disk m512 mbr512 (by decide)

/-! ### Claim C8, amended theorem -/

/-- C8 (amended): the header decoder is not total: the 92-byte buffer `b92`
passes every check (signature word at 8..16, revision, size, CRC-32 fixed
point) yet panics, because the reads run past offset 92; and a successful
decode forces the buffer to be at least 100 bytes long. -/
theorem C8_panics_and_success_needs_100_bytes :
    Header.deserialize b92 = .panic ∧ b92.length = 92 ∧
      ∀ (data : List Nat) (x : Header), Header.deserialize data = .ok x →
        100 ≤ data.length := by
  refine ⟨by decide, by decide, ?_⟩
  intro data x h
  exact (header_deserialize_ok_iff.mp h).1

/-- C8 witness: the 100-byte extension `b100` decodes successfully, so the
theorem's success bound applies to it concretely. -/
theorem C8_panics_and_success_needs_100_bytes_witness : 100 ≤ b100.length :=
  C8_panics_and_success_needs_100_bytes.2.2 b100 hdr100 (by decide)

/-! ### Little-endian assembly arithmetic -/


theorem lor_shiftLeft_add {x y k : Nat} (h : y < 2 ^ k) : x <<< k ||| y = x * 2 ^ k + y := by
  apply Nat.eq_of_testBit_eq
  intro i
  rw [Nat.testBit_or, Nat.testBit_shiftLeft,
    show x * 2 ^ k + y = 2 ^ k * x + y by ring, Nat.testBit_mul_pow_two_add x h i]
  by_cases hik : i < k
  · simp [hik, Nat.not_le_of_lt hik]
  · have hy : y < 2 ^ i := lt_of_lt_of_le h (Nat.pow_le_pow_right (by norm_num) (Nat.le_of_not_lt hik))
    simp [hik, Nat.le_of_not_lt, Nat.testBit_lt_two_pow hy]

theorem assemble4_eq {a0 a1 a2 a3 : Nat} (h0 : a0 < 256) (h1 : a1 < 256) (h2 : a2 < 256) :
    a3 <<< 24 ||| a2 <<< 16 ||| a1 <<< 8 ||| a0 =
      ((a3 * 256 + a2) * 256 + a1) * 256 + a0 := by
  have e8 : a1 <<< 8 ||| a0 = a1 * 2 ^ 8 + a0 := lor_shiftLeft_add h0
  have b8 : a1 <<< 8 ||| a0 < 2 ^ 16 := by rw [e8]; omega
  have e16 : a2 <<< 16 ||| (a1 <<< 8 ||| a0) = a2 * 2 ^ 16 + (a1 <<< 8 ||| a0) :=
    lor_shiftLeft_add b8
  have b16 : a2 <<< 16 ||| (a1 <<< 8 ||| a0) < 2 ^ 24 := by rw [e16, e8]; omega
  rw [Nat.or_assoc, Nat.or_assoc, lor_shiftLeft_add b16, e16, e8]
  omega

theorem assemble8_eq {a0 a1 a2 a3 a4 a5 a6 a7 : Nat} (h0 : a0 < 256) (h1 : a1 < 256)
    (h2 : a2 < 256) (h3 : a3 < 256) (h4 : a4 < 256) (h5 : a5 < 256) (h6 : a6 < 256) :
    a7 <<< 56 ||| a6 <<< 48 ||| a5 <<< 40 ||| a4 <<< 32 |||
        a3 <<< 24 ||| a2 <<< 16 ||| a1 <<< 8 ||| a0 =
      ((((((a7 * 256 + a6) * 256 + a5) * 256 + a4) * 256 + a3) * 256 + a2) * 256 + a1) *
          256 + a0 := by
  have e8 : a1 <<< 8 ||| a0 = a1 * 2 ^ 8 + a0 := lor_shiftLeft_add h0
  have b8 : a1 <<< 8 ||| a0 < 2 ^ 16 := by rw [e8]; omega
  have e16 : a2 <<< 16 ||| (a1 <<< 8 ||| a0) = a2 * 2 ^ 16 + (a1 <<< 8 ||| a0) :=
    lor_shiftLeft_add b8
  have b16 : a2 <<< 16 ||| (a1 <<< 8 ||| a0) < 2 ^ 24 := by rw [e16, e8]; omega
  have e24 : a3 <<< 24 ||| (a2 <<< 16 ||| (a1 <<< 8 ||| a0)) =
      a3 * 2 ^ 24 + (a2 <<< 16 ||| (a1 <<< 8 ||| a0)) := lor_shiftLeft_add b16
  have b24 : a3 <<< 24 ||| (a2 <<< 16 ||| (a1 <<< 8 ||| a0)) < 2 ^ 32 := by
    rw [e24, e16, e8]; omega
  have e32 : a4 <<< 32 ||| (a3 <<< 24 ||| (a2 <<< 16 ||| (a1 <<< 8 ||| a0))) =
      a4 * 2 ^ 32 + (a3 <<< 24 ||| (a2 <<< 16 ||| (a1 <<< 8 ||| a0))) :=
    lor_shiftLeft_add b24
  have b32 : a4 <<< 32 ||| (a3 <<< 24 ||| (a2 <<< 16 ||| (a1 <<< 8 ||| a0))) < 2 ^ 40 := by
    rw [e32, e24, e16, e8]; omega
  have e40 : a5 <<< 40 ||| (a4 <<< 32 ||| (a3 <<< 24 ||| (a2 <<< 16 ||| (a1 <<< 8 ||| a0)))) =
      a5 * 2 ^ 40 + (a4 <<< 32 ||| (a3 <<< 24 ||| (a2 <<< 16 ||| (a1 <<< 8 ||| a0)))) :=
    lor_shiftLeft_add b32
  have b40 : a5 <<< 40 ||| (a4 <<< 32 ||| (a3 <<< 24 ||| (a2 <<< 16 ||| (a1 <<< 8 ||| a0)))) <
      2 ^ 48 := by rw [e40, e32, e24, e16, e8]; omega
  have e48 : a6 <<< 48 |||
        (a5 <<< 40 ||| (a4 <<< 32 ||| (a3 <<< 24 ||| (a2 <<< 16 ||| (a1 <<< 8 ||| a0))))) =
      a6 * 2 ^ 48 +
        (a5 <<< 40 ||| (a4 <<< 32 ||| (a3 <<< 24 ||| (a2 <<< 16 ||| (a1 <<< 8 ||| a0))))) :=
    lor_shiftLeft_add b40
  have b48 : a6 <<< 48 |||
        (a5 <<< 40 ||| (a4 <<< 32 ||| (a3 <<< 24 ||| (a2 <<< 16 ||| (a1 <<< 8 ||| a0))))) <
      2 ^ 56 := by rw [e48, e40, e32, e24, e16, e8]; omega
  rw [Nat.or_assoc, Nat.or_assoc, Nat.or_assoc, Nat.or_assoc, Nat.or_assoc, Nat.or_assoc,
    lor_shiftLeft_add b48, e48, e40, e32, e24, e16, e8]
  omega

theorem assemble4_le4 {v : Nat} (hv : v < 2 ^ 32) :
    (v / 2 ^ 24 % 256) <<< 24 ||| (v / 2 ^ 16 % 256) <<< 16 |||
        (v / 2 ^ 8 % 256) <<< 8 ||| v % 256 = v := by
  rw [assemble4_eq (Nat.mod_lt _ (by norm_num)) (Nat.mod_lt _ (by norm_num))
    (Nat.mod_lt _ (by norm_num))]
  omega

theorem assemble8_le8 {v : Nat} (hv : v < 2 ^ 64) :
    (v / 2 ^ 56 % 256) <<< 56 ||| (v / 2 ^ 48 % 256) <<< 48 |||
        (v / 2 ^ 40 % 256) <<< 40 ||| (v / 2 ^ 32 % 256) <<< 32 |||
        (v / 2 ^ 24 % 256) <<< 24 ||| (v / 2 ^ 16 % 256) <<< 16 |||
        (v / 2 ^ 8 % 256) <<< 8 ||| v % 256 = v := by
  rw [assemble8_eq (Nat.mod_lt _ (by norm_num)) (Nat.mod_lt _ (by norm_num))
    (Nat.mod_lt _ (by norm_num)) (Nat.mod_lt _ (by norm_num)) (Nat.mod_lt _ (by norm_num))
    (Nat.mod_lt _ (by norm_num)) (Nat.mod_lt _ (by norm_num))]
  omega

theorem assemble4_lt {a0 a1 a2 a3 : Nat} (h0 : a0 < 256) (h1 : a1 < 256) (h2 : a2 < 256)
    (h3 : a3 < 256) : a3 <<< 24 ||| a2 <<< 16 ||| a1 <<< 8 ||| a0 < 2 ^ 32 := by
  rw [assemble4_eq h0 h1 h2]
  omega

theorem assemble8_lt {a0 a1 a2 a3 a4 a5 a6 a7 : Nat} (h0 : a0 < 256) (h1 : a1 < 256)
    (h2 : a2 < 256) (h3 : a3 < 256) (h4 : a4 < 256) (h5 : a5 < 256) (h6 : a6 < 256)
    (h7 : a7 < 256) :
    a7 <<< 56 ||| a6 <<< 48 ||| a5 <<< 40 ||| a4 <<< 32 |||
        a3 <<< 24 ||| a2 <<< 16 ||| a1 <<< 8 ||| a0 < 2 ^ 64 := by
  rw [assemble8_eq h0 h1 h2 h3 h4 h5 h6]
  omega

/-! ### Helpers for reading back a serialized buffer -/

theorem bytes_getD {data : List Nat} (hb : Bytes data) (i : Nat) : data.getD i 0 < 256 := by
  rcases Nat.lt_or_ge i data.length with h | h
  · rw [List.getD_eq_getElem data 0 h]
    exact hb _ (List.getElem_mem h)
  · rw [List.getD_eq_default data 0 h]
    norm_num

theorem bytes_subslice {data : List Nat} (hb : Bytes data) (off n : Nat) :
    Bytes (subslice data off n) := by
  intro b hbmem
  exact hb b (List.mem_of_mem_drop (List.mem_of_mem_take hbmem))

theorem u32at_lt {data : List Nat} (hb : Bytes data) (i : Nat) : u32at data i < 2 ^ 32 :=
  assemble4_lt (bytes_getD hb i) (bytes_getD hb (i + 1)) (bytes_getD hb (i + 2))
    (bytes_getD hb (i + 3))

theorem u64at_lt {data : List Nat} (hb : Bytes data) (i : Nat) : u64at data i < 2 ^ 64 :=
  assemble8_lt (bytes_getD hb i) (bytes_getD hb (i + 1)) (bytes_getD hb (i + 2))
    (bytes_getD hb (i + 3)) (bytes_getD hb (i + 4)) (bytes_getD hb (i + 5))
    (bytes_getD hb (i + 6)) (bytes_getD hb (i + 7))

theorem getD_append_seg {l₁ l₂ : List Nat} {i i2 k : Nat} (hk : l₁.length = k)
    (hi : i = k + i2) : (l₁ ++ l₂).getD i 0 = l₂.getD i2 0 := by
  subst hi
  simp [List.getD, List.getElem?_append_right, hk]

theorem getD_append_low {l₁ l₂ : List Nat} {i : Nat} (h : i < l₁.length) :
    (l₁ ++ l₂).getD i 0 = l₁.getD i 0 := by
  rw [List.getD_eq_getElem _ 0 (by simp; omega), List.getD_eq_getElem _ 0 h]
  exact List.getElem_append_left h

theorem subslice_append_seg {l₁ l₂ : List Nat} {off off2 n k : Nat} (hk : l₁.length = k)
    (ho : off = k + off2) : subslice (l₁ ++ l₂) off n = subslice l₂ off2 n := by
  subst ho
  unfold subslice
  rw [← hk, List.drop_append]

theorem subslice_left {l₁ l₂ : List Nat} {n : Nat} (h : l₁.length = n) :
    subslice (l₁ ++ l₂) 0 n = l₁ := by
  subst h
  unfold subslice
  rw [List.drop_zero, List.take_left]

theorem subslice_closed {l₁ l₂ : List Nat} {off n : Nat} (h : off + n ≤ l₁.length) :
    subslice (l₁ ++ l₂) off n = subslice l₁ off n := by
  unfold subslice
  rw [List.drop_append_of_le_length (by omega), List.take_append_of_le_length (by
    rw [List.length_drop]; omega)]

theorem u16at_append_seg {l₁ l₂ : List Nat} {i i2 k : Nat} (hk : l₁.length = k)
    (hi : i = k + i2) : u16at (l₁ ++ l₂) i = u16at l₂ i2 := by
  unfold u16at
  rw [getD_append_seg hk hi, getD_append_seg hk (by omega : i + 1 = k + (i2 + 1))]

theorem u32at_append_seg {l₁ l₂ : List Nat} {i i2 k : Nat} (hk : l₁.length = k)
    (hi : i = k + i2) : u32at (l₁ ++ l₂) i = u32at l₂ i2 := by
  unfold u32at
  rw [getD_append_seg hk hi, getD_append_seg hk (by omega : i + 1 = k + (i2 + 1)),
    getD_append_seg hk (by omega : i + 2 = k + (i2 + 2)),
    getD_append_seg hk (by omega : i + 3 = k + (i2 + 3))]

theorem u64at_append_seg {l₁ l₂ : List Nat} {i i2 k : Nat} (hk : l₁.length = k)
    (hi : i = k + i2) : u64at (l₁ ++ l₂) i = u64at l₂ i2 := by
  unfold u64at
  rw [getD_append_seg hk hi, getD_append_seg hk (by omega : i + 1 = k + (i2 + 1)),
    getD_append_seg hk (by omega : i + 2 = k + (i2 + 2)),
    getD_append_seg hk (by omega : i + 3 = k + (i2 + 3)),
    getD_append_seg hk (by omega : i + 4 = k + (i2 + 4)),
    getD_append_seg hk (by omega : i + 5 = k + (i2 + 5)),
    getD_append_seg hk (by omega : i + 6 = k + (i2 + 6)),
    getD_append_seg hk (by omega : i + 7 = k + (i2 + 7))]

theorem u32at_le4_head {v : Nat} {rest : List Nat} (hv : v < 2 ^ 32) :
    u32at (le4 v ++ rest) 0 = v := by
  unfold u32at le4
  simp only [List.cons_append, List.nil_append, List.getD_cons_zero, List.getD_cons_succ]
  exact assemble4_le4 hv

theorem u64at_le8_head {v : Nat} {rest : List Nat} (hv : v < 2 ^ 64) :
    u64at (le8 v ++ rest) 0 = v := by
  unfold u64at le8
  simp only [List.cons_append, List.nil_append, List.getD_cons_zero, List.getD_cons_succ]
  exact assemble8_le8 hv

theorem le4_length {v : Nat} : (le4 v).length = 4 := by
  unfold le4
  rfl

theorem le8_length {v : Nat} : (le8 v).length = 8 := by
  unfold le8
  rfl

theorem le2_length {v : Nat} : (le2 v).length = 2 := by
  unfold le2
  rfl

/-! ### Round trip for a partition entry -/

theorem entry_round_trip (data : List Nat) (x : PartEntry) (hb : Bytes data)
    (h : PartEntry.deserialize data = .ok x) :
    (x.serialize data.length).bind PartEntry.deserialize = .ok x := by
  obtain ⟨hlen, hg1, hg2, hx⟩ := entry_deserialize_ok_iff.mp h
  subst hx
  rw [PartEntry.serialize, if_pos (by omega)]
  rw [DecodeResult.bind]
  have hga : (subslice data 0 16).length = 16 := subslice_length (by omega)
  have hgb : (subslice data 16 16).length = 16 := subslice_length (by omega)
  have hnm : (subslice data 56 16).length = 16 := subslice_length (by omega)
  have hs1 : u64at data 32 < 2 ^ 64 := u64at_lt hb 32
  have hs2 : u64at data 40 < 2 ^ 64 := u64at_lt hb 40
  have hs3 : u64at data 48 < 2 ^ 64 := u64at_lt hb 48
  dsimp only
  apply entry_deserialize_ok_iff.mpr
  simp only [List.append_assoc]
  refine ⟨?_, ?_, ?_, ?_⟩
  · simp [List.length_append, hga, hgb, hnm, le8_length]
    omega
  · rw [subslice_left hga]
    exact hg1
  · rw [subslice_append_seg hga (by omega : (16 : Nat) = 16 + 0)]
    rw [subslice_left hgb]
    exact hg2
  · rw [subslice_left hga]
    rw [subslice_append_seg hga (by omega : (16 : Nat) = 16 + 0)]
    rw [subslice_left hgb]
    rw [u64at_append_seg hga (by omega : (32 : Nat) = 16 + 16)]
    rw [u64at_append_seg hgb (by omega : (16 : Nat) = 16 + 0)]
    rw [u64at_le8_head hs1]
    rw [u64at_append_seg hga (by omega : (40 : Nat) = 16 + 24)]
    rw [u64at_append_seg hgb (by omega : (24 : Nat) = 16 + 8)]
    rw [u64at_append_seg le8_length (by omega : (8 : Nat) = 8 + 0)]
    rw [u64at_le8_head hs2]
    rw [u64at_append_seg hga (by omega : (48 : Nat) = 16 + 32)]
    rw [u64at_append_seg hgb (by omega : (32 : Nat) = 16 + 16)]
    rw [u64at_append_seg le8_length (by omega : (16 : Nat) = 8 + 8)]
    rw [u64at_append_seg le8_length (by omega : (8 : Nat) = 8 + 0)]
    rw [u64at_le8_head hs3]
    rw [subslice_append_seg hga (by omega : (56 : Nat) = 16 + 40)]
    rw [subslice_append_seg hgb (by omega : (40 : Nat) = 16 + 24)]
    rw [subslice_append_seg le8_length (by omega : (24 : Nat) = 8 + 16)]
    rw [subslice_append_seg le8_length (by omega : (16 : Nat) = 8 + 8)]
    rw [subslice_append_seg le8_length (by omega : (8 : Nat) = 8 + 0)]
    rw [subslice_left hnm]

theorem length1 (a : Nat) : ([a] : List Nat).length = 1 := rfl

theorem length3 (a b c : Nat) : ([a, b, c] : List Nat).length = 3 := rfl

theorem length4 (a b c d : Nat) : ([a, b, c, d] : List Nat).length = 4 := rfl

theorem u16at_le2_head {v : Nat} {rest : List Nat} (hv : v < 2 ^ 16) :
    u16at (le2 v ++ rest) 0 = v := by
  unfold u16at le2
  simp only [List.cons_append, List.nil_append, List.getD_cons_zero, List.getD_cons_succ]
  rw [lor_shiftLeft_add (by omega : v % 256 < 2 ^ 8)]
  omega

theorem u32at_le4_bare {v : Nat} (hv : v < 2 ^ 32) : u32at (le4 v) 0 = v := by
  unfold u32at le4
  simp only [List.getD_cons_zero, List.getD_cons_succ]
  exact assemble4_le4 hv

theorem subslice_zero_append {l₁ l₂ : List Nat} {n n2 k : Nat} (hk : l₁.length = k)
    (hn : n = k + n2) : subslice (l₁ ++ l₂) 0 n = l₁ ++ subslice l₂ 0 n2 := by
  subst hn
  unfold subslice
  rw [List.drop_zero, List.drop_zero, List.take_append_eq_append_take,
    List.take_of_length_le (by omega), hk]
  congr 1
  congr 1
  omega

/-- Decoding the exact byte image that `MbrPartRecord.serialize` emits for a
valid record yields the record back. -/
theorem record_bytes_round {b sz : Nat} (hsz : sz < 2 ^ 32) :
    MbrPartRecord.deserialize
        ([b] ++ ([0, 2, 0] ++ ([238] ++ ([0, 2, 0] ++ (le4 1 ++ le4 sz))))) =
      .ok ⟨b, [0, 2, 0], 238, [0, 2, 0], 1, sz⟩ := by
  apply record_deserialize_ok_iff.mpr
  refine ⟨?_, ?_, ?_, ?_, ?_, ?_⟩
  · simp [le4_length]
  · rw [subslice_append_seg (length1 _) (by omega : (1 : Nat) = 1 + 0)]
    rw [subslice_closed (by simp : (0 : Nat) + 3 ≤ ([0, 2, 0] : List Nat).length)]
    rfl
  · rw [getD_append_seg (length1 _) (by omega : (4 : Nat) = 1 + 3)]
    rw [getD_append_seg (length3 _ _ _) (by omega : (3 : Nat) = 3 + 0)]
    rfl
  · rw [subslice_append_seg (length1 _) (by omega : (5 : Nat) = 1 + 4)]
    rw [subslice_append_seg (length3 _ _ _) (by omega : (4 : Nat) = 3 + 1)]
    rw [subslice_append_seg (length1 _) (by omega : (1 : Nat) = 1 + 0)]
    rw [subslice_closed (by simp : (0 : Nat) + 3 ≤ ([0, 2, 0] : List Nat).length)]
    rfl
  · rw [u32at_append_seg (length1 _) (by omega : (8 : Nat) = 1 + 7)]
    rw [u32at_append_seg (length3 _ _ _) (by omega : (7 : Nat) = 3 + 4)]
    rw [u32at_append_seg (length1 _) (by omega : (4 : Nat) = 1 + 3)]
    rw [u32at_append_seg (length3 _ _ _) (by omega : (3 : Nat) = 3 + 0)]
    exact u32at_le4_head (by norm_num)
  · rw [u32at_append_seg (length1 _) (by omega : (12 : Nat) = 1 + 11)]
    rw [u32at_append_seg (length3 _ _ _) (by omega : (11 : Nat) = 3 + 8)]
    rw [u32at_append_seg (length1 _) (by omega : (8 : Nat) = 1 + 7)]
    rw [u32at_append_seg (length3 _ _ _) (by omega : (7 : Nat) = 3 + 4)]
    rw [u32at_append_seg le4_length (by omega : (4 : Nat) = 4 + 0)]
    rw [u32at_le4_bare hsz]
    rfl

/-- Round trip for the protective MBR: decode, encode at the original size,
decode again. -/
theorem mbr_round_trip (data : List Nat) (x : ProtectiveMbr) (hb : Bytes data)
    (h : ProtectiveMbr.deserialize data = .ok x) :
    (x.serialize data.length).bind ProtectiveMbr.deserialize = .ok x := by
  obtain ⟨hlen, hds, hunk, hsig, r0, r1, r2, r3, hd0, hd1, hd2, hd3, hx⟩ :=
    mbr_deserialize_ok_iff.mp h
  obtain ⟨hl0, hca0, hcb0, hcc0, hcd0, hr0⟩ := record_deserialize_ok_iff.mp hd0
  obtain ⟨hl1, hca1, hcb1, hcc1, hcd1, hr1⟩ := record_deserialize_ok_iff.mp hd1
  obtain ⟨hl2, hca2, hcb2, hcc2, hcd2, hr2⟩ := record_deserialize_ok_iff.mp hd2
  obtain ⟨hl3, hca3, hcb3, hcc3, hcd3, hr3⟩ := record_deserialize_ok_iff.mp hd3
  subst hx hr0 hr1 hr2 hr3
  have hsz0 : u32at (subslice data 446 16) 12 < 2 ^ 32 := u32at_lt (bytes_subslice hb 446 16) 12
  have hsz1 : u32at (subslice data 462 16) 12 < 2 ^ 32 := u32at_lt (bytes_subslice hb 462 16) 12
  have hsz2 : u32at (subslice data 478 16) 12 < 2 ^ 32 := u32at_lt (bytes_subslice hb 478 16) 12
  have hsz3 : u32at (subslice data 494 16) 12 < 2 ^ 32 := u32at_lt (bytes_subslice hb 494 16) 12
  have hbc : (subslice data 0 440).length = 440 := subslice_length (by omega)
  rw [ProtectiveMbr.serialize, if_pos (by omega)]
  simp only [serializeRecords, MbrPartRecord.serialize, DecodeResult.bind,
    if_pos (by omega : (16 : Nat) ≤ 16), Nat.sub_self, List.replicate_zero, List.append_nil]
  apply mbr_deserialize_ok_iff.mpr
  simp only [List.append_assoc]
  refine ⟨?_, ?_, ?_, ?_, ?_⟩
  · simp [hbc, le4_length, le2_length]
    omega
  ·
    rw [subslice_append_seg (hbc) (by omega : (440 : Nat) = 440 + 0)]
    rw [subslice_closed (by simp : (0 : Nat) + 4 ≤ ([0, 0, 0, 0] : List Nat).length)]
    rfl
  ·
    rw [u16at_append_seg (hbc) (by omega : (444 : Nat) = 440 + 4)]
    rw [u16at_append_seg (length4 _ _ _ _) (by omega : (4 : Nat) = 4 + 0)]
    exact u16at_le2_head (by norm_num)
  ·
    rw [u16at_append_seg (hbc) (by omega : (510 : Nat) = 440 + 70)]
    rw [u16at_append_seg (length4 _ _ _ _) (by omega : (70 : Nat) = 4 + 66)]
    rw [u16at_append_seg (le2_length) (by omega : (66 : Nat) = 2 + 64)]
    rw [u16at_append_seg (length1 _) (by omega : (64 : Nat) = 1 + 63)]
    rw [u16at_append_seg (length3 _ _ _) (by omega : (63 : Nat) = 3 + 60)]
    rw [u16at_append_seg (length1 _) (by omega : (60 : Nat) = 1 + 59)]
    rw [u16at_append_seg (length3 _ _ _) (by omega : (59 : Nat) = 3 + 56)]
    rw [u16at_append_seg (le4_length) (by omega : (56 : Nat) = 4 + 52)]
    rw [u16at_append_seg (le4_length) (by omega : (52 : Nat) = 4 + 48)]
    rw [u16at_append_seg (length1 _) (by omega : (48 : Nat) = 1 + 47)]
    rw [u16at_append_seg (length3 _ _ _) (by omega : (47 : Nat) = 3 + 44)]
    rw [u16at_append_seg (length1 _) (by omega : (44 : Nat) = 1 + 43)]
    rw [u16at_append_seg (length3 _ _ _) (by omega : (43 : Nat) = 3 + 40)]
    rw [u16at_append_seg (le4_length) (by omega : (40 : Nat) = 4 + 36)]
    rw [u16at_append_seg (le4_length) (by omega : (36 : Nat) = 4 + 32)]
    rw [u16at_append_seg (length1 _) (by omega : (32 : Nat) = 1 + 31)]
    rw [u16at_append_seg (length3 _ _ _) (by omega : (31 : Nat) = 3 + 28)]
    rw [u16at_append_seg (length1 _) (by omega : (28 : Nat) = 1 + 27)]
    rw [u16at_append_seg (length3 _ _ _) (by omega : (27 : Nat) = 3 + 24)]
    rw [u16at_append_seg (le4_length) (by omega : (24 : Nat) = 4 + 20)]
    rw [u16at_append_seg (le4_length) (by omega : (20 : Nat) = 4 + 16)]
    rw [u16at_append_seg (length1 _) (by omega : (16 : Nat) = 1 + 15)]
    rw [u16at_append_seg (length3 _ _ _) (by omega : (15 : Nat) = 3 + 12)]
    rw [u16at_append_seg (length1 _) (by omega : (12 : Nat) = 1 + 11)]
    rw [u16at_append_seg (length3 _ _ _) (by omega : (11 : Nat) = 3 + 8)]
    rw [u16at_append_seg (le4_length) (by omega : (8 : Nat) = 4 + 4)]
    rw [u16at_append_seg (le4_length) (by omega : (4 : Nat) = 4 + 0)]
    exact u16at_le2_head (by norm_num)
  · refine ⟨⟨(subslice data 446 16).getD 0 0, [0, 2, 0], 238, [0, 2, 0], 1, u32at (subslice data 446 16) 12⟩,
      ⟨(subslice data 462 16).getD 0 0, [0, 2, 0], 238, [0, 2, 0], 1, u32at (subslice data 462 16) 12⟩,
      ⟨(subslice data 478 16).getD 0 0, [0, 2, 0], 238, [0, 2, 0], 1, u32at (subslice data 478 16) 12⟩,
      ⟨(subslice data 494 16).getD 0 0, [0, 2, 0], 238, [0, 2, 0], 1, u32at (subslice data 494 16) 12⟩, ?_, ?_, ?_, ?_, ?_⟩
    ·
      rw [subslice_append_seg (hbc) (by omega : (446 : Nat) = 440 + 6)]
      rw [subslice_append_seg (length4 _ _ _ _) (by omega : (6 : Nat) = 4 + 2)]
      rw [subslice_append_seg (le2_length) (by omega : (2 : Nat) = 2 + 0)]
      rw [subslice_zero_append (length1 _) (by omega : (16 : Nat) = 1 + 15)]
      rw [subslice_zero_append (length3 _ _ _) (by omega : (15 : Nat) = 3 + 12)]
      rw [subslice_zero_append (length1 _) (by omega : (12 : Nat) = 1 + 11)]
      rw [subslice_zero_append (length3 _ _ _) (by omega : (11 : Nat) = 3 + 8)]
      rw [subslice_zero_append (le4_length) (by omega : (8 : Nat) = 4 + 4)]
      rw [subslice_left le4_length]
      exact record_bytes_round hsz0
    ·
      rw [subslice_append_seg (hbc) (by omega : (462 : Nat) = 440 + 22)]
      rw [subslice_append_seg (length4 _ _ _ _) (by omega : (22 : Nat) = 4 + 18)]
      rw [subslice_append_seg (le2_length) (by omega : (18 : Nat) = 2 + 16)]
      rw [subslice_append_seg (length1 _) (by omega : (16 : Nat) = 1 + 15)]
      rw [subslice_append_seg (length3 _ _ _) (by omega : (15 : Nat) = 3 + 12)]
      rw [subslice_append_seg (length1 _) (by omega : (12 : Nat) = 1 + 11)]
      rw [subslice_append_seg (length3 _ _ _) (by omega : (11 : Nat) = 3 + 8)]
      rw [subslice_append_seg (le4_length) (by omega : (8 : Nat) = 4 + 4)]
      rw [subslice_append_seg (le4_length) (by omega : (4 : Nat) = 4 + 0)]
      rw [subslice_zero_append (length1 _) (by omega : (16 : Nat) = 1 + 15)]
      rw [subslice_zero_append (length3 _ _ _) (by omega : (15 : Nat) = 3 + 12)]
      rw [subslice_zero_append (length1 _) (by omega : (12 : Nat) = 1 + 11)]
      rw [subslice_zero_append (length3 _ _ _) (by omega : (11 : Nat) = 3 + 8)]
      rw [subslice_zero_append (le4_length) (by omega : (8 : Nat) = 4 + 4)]
      rw [subslice_left le4_length]
      exact record_bytes_round hsz1
    ·
      rw [subslice_append_seg (hbc) (by omega : (478 : Nat) = 440 + 38)]
      rw [subslice_append_seg (length4 _ _ _ _) (by omega : (38 : Nat) = 4 + 34)]
      rw [subslice_append_seg (le2_length) (by omega : (34 : Nat) = 2 + 32)]
      rw [subslice_append_seg (length1 _) (by omega : (32 : Nat) = 1 + 31)]
      rw [subslice_append_seg (length3 _ _ _) (by omega : (31 : Nat) = 3 + 28)]
      rw [subslice_append_seg (length1 _) (by omega : (28 : Nat) = 1 + 27)]
      rw [subslice_append_seg (length3 _ _ _) (by omega : (27 : Nat) = 3 + 24)]
      rw [subslice_append_seg (le4_length) (by omega : (24 : Nat) = 4 + 20)]
      rw [subslice_append_seg (le4_length) (by omega : (20 : Nat) = 4 + 16)]
      rw [subslice_append_seg (length1 _) (by omega : (16 : Nat) = 1 + 15)]
      rw [subslice_append_seg (length3 _ _ _) (by omega : (15 : Nat) = 3 + 12)]
      rw [subslice_append_seg (length1 _) (by omega : (12 : Nat) = 1 + 11)]
      rw [subslice_append_seg (length3 _ _ _) (by omega : (11 : Nat) = 3 + 8)]
      rw [subslice_append_seg (le4_length) (by omega : (8 : Nat) = 4 + 4)]
      rw [subslice_append_seg (le4_length) (by omega : (4 : Nat) = 4 + 0)]
      rw [subslice_zero_append (length1 _) (by omega : (16 : Nat) = 1 + 15)]
      rw [subslice_zero_append (length3 _ _ _) (by omega : (15 : Nat) = 3 + 12)]
      rw [subslice_zero_append (length1 _) (by omega : (12 : Nat) = 1 + 11)]
      rw [subslice_zero_append (length3 _ _ _) (by omega : (11 : Nat) = 3 + 8)]
      rw [subslice_zero_append (le4_length) (by omega : (8 : Nat) = 4 + 4)]
      rw [subslice_left le4_length]
      exact record_bytes_round hsz2
    ·
      rw [subslice_append_seg (hbc) (by omega : (494 : Nat) = 440 + 54)]
      rw [subslice_append_seg (length4 _ _ _ _) (by omega : (54 : Nat) = 4 + 50)]
      rw [subslice_append_seg (le2_length) (by omega : (50 : Nat) = 2 + 48)]
      rw [subslice_append_seg (length1 _) (by omega : (48 : Nat) = 1 + 47)]
      rw [subslice_append_seg (length3 _ _ _) (by omega : (47 : Nat) = 3 + 44)]
      rw [subslice_append_seg (length1 _) (by omega : (44 : Nat) = 1 + 43)]
      rw [subslice_append_seg (length3 _ _ _) (by omega : (43 : Nat) = 3 + 40)]
      rw [subslice_append_seg (le4_length) (by omega : (40 : Nat) = 4 + 36)]
      rw [subslice_append_seg (le4_length) (by omega : (36 : Nat) = 4 + 32)]
      rw [subslice_append_seg (length1 _) (by omega : (32 : Nat) = 1 + 31)]
      rw [subslice_append_seg (length3 _ _ _) (by omega : (31 : Nat) = 3 + 28)]
      rw [subslice_append_seg (length1 _) (by omega : (28 : Nat) = 1 + 27)]
      rw [subslice_append_seg (length3 _ _ _) (by omega : (27 : Nat) = 3 + 24)]
      rw [subslice_append_seg (le4_length) (by omega : (24 : Nat) = 4 + 20)]
      rw [subslice_append_seg (le4_length) (by omega : (20 : Nat) = 4 + 16)]
      rw [subslice_append_seg (length1 _) (by omega : (16 : Nat) = 1 + 15)]
      rw [subslice_append_seg (length3 _ _ _) (by omega : (15 : Nat) = 3 + 12)]
      rw [subslice_append_seg (length1 _) (by omega : (12 : Nat) = 1 + 11)]
      rw [subslice_append_seg (length3 _ _ _) (by omega : (11 : Nat) = 3 + 8)]
      rw [subslice_append_seg (le4_length) (by omega : (8 : Nat) = 4 + 4)]
      rw [subslice_append_seg (le4_length) (by omega : (4 : Nat) = 4 + 0)]
      rw [subslice_zero_append (length1 _) (by omega : (16 : Nat) = 1 + 15)]
      rw [subslice_zero_append (length3 _ _ _) (by omega : (15 : Nat) = 3 + 12)]
      rw [subslice_zero_append (length1 _) (by omega : (12 : Nat) = 1 + 11)]
      rw [subslice_zero_append (length3 _ _ _) (by omega : (11 : Nat) = 3 + 8)]
      rw [subslice_zero_append (le4_length) (by omega : (8 : Nat) = 4 + 4)]
      rw [subslice_left le4_length]
      exact record_bytes_round hsz3
    · rw [subslice_left hbc]

theorem take_eq_subslice {l : List Nat} {n : Nat} : l.take n = subslice l 0 n := by
  simp [subslice]

theorem u64at_le4_le4_head {a b : Nat} {rest : List Nat} (ha : a < 2 ^ 32) :
    u64at (le4 a ++ (le4 b ++ rest)) 0 = a + 2 ^ 32 * (b % 2 ^ 32) := by
  unfold u64at le4
  simp only [List.cons_append, List.nil_append, List.getD_cons_zero, List.getD_cons_succ]
  rw [assemble8_eq (by omega) (by omega) (by omega) (by omega) (by omega) (by omega) (by omega)]
  omega

/-- Re-decoding an encoded header fails with HdrSignature no matter what four
bytes are written into the CRC field at offsets 16..20, because the signature
check reads bytes 8..16, where encode wrote the revision and header-size
fields. -/
theorem header_reencode_fails (data : List Nat) (x : Header) (out : List Nat)
    (h : Header.deserialize data = .ok x) (hs : x.serialize data.length = .ok out)
    (c : List Nat) (hc : c.length = 4) :
    Header.deserialize (out.take 16 ++ c ++ out.drop 20) = .error .HdrSignature := by
  obtain ⟨hlen, hsg, hrv, hh1, hh2, hcrc, hgd, hx⟩ := header_deserialize_ok_iff.mp h
  subst hx
  rw [Header.serialize, if_pos (by omega)] at hs
  injection hs with hout
  subst hout
  have hsig8 : (subslice data 0 8).length = 8 := subslice_length (by omega)
  simp only [List.append_assoc, take_eq_subslice]
  rw [subslice_zero_append hsig8 (by omega : (16 : Nat) = 8 + 8)]
  rw [subslice_zero_append le4_length (by omega : (8 : Nat) = 4 + 4)]
  rw [subslice_left le4_length]
  simp only [List.append_assoc]
  have hBlen : 20 ≤ (subslice data 0 8 ++ (le4 0x00010000 ++ (le4 (u32at data 20) ++ (c ++
      ((subslice data 0 8 ++ (le4 0x00010000 ++ (le4 (u32at data 20) ++ (le4 (u32at data 24) ++
        (le4 (u32at data 28) ++ (le8 (u64at data 32) ++ (le8 (u64at data 40) ++
        (le8 (u64at data 48) ++ (le8 (u64at data 56) ++ (subslice data 56 16 ++
        (le8 (u64at data 80) ++ (le4 (u32at data 88) ++ (le4 (u32at data 92) ++
        (le4 (u32at data 96) ++ List.replicate (data.length - 92) 0)))))))))))))).drop 20))))).length := by
    have hg16 : (subslice data 56 16).length = 16 := subslice_length (by omega)
    simp [hsig8, le4_length, le8_length, hc, hg16]
    omega
  have e1 : (⟨subslice data 0 8 ++ (le4 0x00010000 ++ (le4 (u32at data 20) ++ (c ++
      ((subslice data 0 8 ++ (le4 0x00010000 ++ (le4 (u32at data 20) ++ (le4 (u32at data 24) ++
        (le4 (u32at data 28) ++ (le8 (u64at data 32) ++ (le8 (u64at data 40) ++
        (le8 (u64at data 48) ++ (le8 (u64at data 56) ++ (subslice data 56 16 ++
        (le8 (u64at data 80) ++ (le4 (u32at data 88) ++ (le4 (u32at data 92) ++
        (le4 (u32at data 96) ++ List.replicate (data.length - 92) 0)))))))))))))).drop 20)))), 0⟩ :
      LittleEndianBytes).copy_from 0 8 = some (subslice (subslice data 0 8 ++ (le4 0x00010000 ++
        (le4 (u32at data 20) ++ (c ++
      ((subslice data 0 8 ++ (le4 0x00010000 ++ (le4 (u32at data 20) ++ (le4 (u32at data 24) ++
        (le4 (u32at data 28) ++ (le8 (u64at data 32) ++ (le8 (u64at data 40) ++
        (le8 (u64at data 48) ++ (le8 (u64at data 56) ++ (subslice data 56 16 ++
        (le8 (u64at data 80) ++ (le4 (u32at data 88) ++ (le4 (u32at data 92) ++
        (le4 (u32at data 96) ++ List.replicate (data.length - 92) 0)))))))))))))).drop 20))))) 0 8,
      ⟨subslice data 0 8 ++ (le4 0x00010000 ++ (le4 (u32at data 20) ++ (c ++
      ((subslice data 0 8 ++ (le4 0x00010000 ++ (le4 (u32at data 20) ++ (le4 (u32at data 24) ++
        (le4 (u32at data 28) ++ (le8 (u64at data 32) ++ (le8 (u64at data 40) ++
        (le8 (u64at data 48) ++ (le8 (u64at data 56) ++ (subslice data 56 16 ++
        (le8 (u64at data 80) ++ (le4 (u32at data 88) ++ (le4 (u32at data 92) ++
        (le4 (u32at data 96) ++ List.replicate (data.length - 92) 0)))))))))))))).drop 20)))), 0 + 8⟩) :=
    copy_from_eval (by omega)
  simp only [Header.deserialize, LittleEndianBytes.ofSlice, e1]
  rw [parse_u64_eval (by omega)]
  simp only []
  have hval : u64at (subslice data 0 8 ++ (le4 0x00010000 ++ (le4 (u32at data 20) ++ (c ++
      ((subslice data 0 8 ++ (le4 0x00010000 ++ (le4 (u32at data 20) ++ (le4 (u32at data 24) ++
        (le4 (u32at data 28) ++ (le8 (u64at data 32) ++ (le8 (u64at data 40) ++
        (le8 (u64at data 48) ++ (le8 (u64at data 56) ++ (subslice data 56 16 ++
        (le8 (u64at data 80) ++ (le4 (u32at data 88) ++ (le4 (u32at data 92) ++
        (le4 (u32at data 96) ++ List.replicate (data.length - 92) 0)))))))))))))).drop 20)))))
      (0 + 8) = 0x00010000 + 2 ^ 32 * (u32at data 20 % 2 ^ 32) := by
    rw [u64at_append_seg hsig8 (by omega : (0 : Nat) + 8 = 8 + 0)]
    exact u64at_le4_le4_head (by norm_num)
  rw [hval]
  unfold Header.check_signature
  rw [if_neg (by omega)]

/-! ### Claim C5, amended theorem and witness -/

/-- C5 (amended): the round trip holds for ProtectiveMbr and PartEntry —
decode, encode at the original buffer size, decode again gives the value back
field-for-field — but fails for Header: decoding the encoded buffer returns
the HdrSignature error for every successfully decoded header, no matter what
four bytes (in particular a correctly recomputed CRC-32) are written into the
CRC field at offsets 16..20, because decode validates the signature against
bytes 8..16 where encode wrote the revision and header-size fields. -/
theorem C5_round_trip_amended :
    (∀ (data : List Nat) (x : ProtectiveMbr), Bytes data →
        ProtectiveMbr.deserialize data = .ok x →
        (x.serialize data.length).bind ProtectiveMbr.deserialize = .ok x) ∧
      (∀ (data : List Nat) (x : PartEntry), Bytes data →
        PartEntry.deserialize data = .ok x →
        (x.serialize data.length).bind PartEntry.deserialize = .ok x) ∧
      (∀ (data : List Nat) (x : Header) (out : List Nat),
        Header.deserialize data = .ok x → x.serialize data.length = .ok out →
        ∀ c : List Nat, c.length = 4 →
          Header.deserialize (out.take 16 ++ c ++ out.drop 20) = .error .HdrSignature) :=
  ⟨mbr_round_trip, entry_round_trip, header_reencode_fails⟩

/-- The byte image `Header.serialize` produces for `hdr100` at size 100. -/
def out100 : List Nat :=
  List.replicate 8 0 ++ [0, 0, 1, 0] ++ [92, 0, 0, 0] ++ [0x69, 0x50, 0x6C, 0x31] ++
    List.replicate 4 0 ++ List.replicate 24 0 ++ List.replicate 8 0x41 ++
    List.replicate 16 0x41 ++ List.replicate 20 0 ++ List.replicate 8 0

/-- C5 witness: the amended round trip at concrete inputs — the valid MBR
`m512`, the valid entry `e128`, and the decodable header buffer `b100` with an
arbitrary CRC field rewrite. -/
theorem C5_round_trip_amended_witness :
    (mbr512.serialize m512.length).bind ProtectiveMbr.deserialize = .ok mbr512 ∧
      (entry128.serialize e128.length).bind PartEntry.deserialize = .ok entry128 ∧
      Header.deserialize (out100.take 16 ++ [1, 2, 3, 4] ++ out100.drop 20) =
        .error .HdrSignature :=
  ⟨C5_round_trip_amended.1 m512 mbr512 (by decide) (by decide),
   C5_round_trip_amended.2.1 e128 entry128 (by decide) (by decide),
   C5_round_trip_amended.2.2 b100 hdr100 out100 (by decide) (by decide) [1, 2, 3, 4] (by decide)⟩

/-! ### Claim C6, amended theorem -/

theorem guid_byte_ok_iff {b : Nat} :
    guid_byte_ok b = true ↔ (0x41 ≤ b ∧ b ≤ 0x59) ∨ (0x61 ≤ b ∧ b ≤ 0x79) := by
  unfold guid_byte_ok
  rw [decide_eq_true_iff]
  omega

/-- C6 (amended): `try_from` succeeds exactly on 16-byte inputs whose bytes
all lie in 0x41..0x59 or 0x61..0x79 inclusive (the half-open Rust ranges
exclude 0x5A and 0x7A), storing the bytes unchanged; otherwise the PartUUID
error is returned. -/
theorem C6_try_from_characterization (value : List Nat) :
    PartUUID.try_from value =
      if value.length = 16 ∧ ∀ b ∈ value, (0x41 ≤ b ∧ b ≤ 0x59) ∨ (0x61 ≤ b ∧ b ≤ 0x79) then
        .ok ⟨value⟩
      else .error .PartUUID := by
  unfold PartUUID.try_from UUID_SIZE
  have hle := List.countP_le_length guid_byte_ok (l := value)
  have hiff : value.countP guid_byte_ok = value.length ↔ ∀ b ∈ value, guid_byte_ok b :=
    List.countP_eq_length
  have key : (value.length ≠ 16 ∨ value.countP guid_byte_ok < value.length) ↔
      ¬(value.length = 16 ∧
        ∀ b ∈ value, (0x41 ≤ b ∧ b ≤ 0x59) ∨ (0x61 ≤ b ∧ b ≤ 0x79)) := by
    rw [not_and_or]
    constructor
    · rintro (h | h)
      · exact Or.inl h
      · right
        intro hall
        have : value.countP guid_byte_ok = value.length :=
          hiff.mpr fun b hb => (guid_byte_ok_iff).mpr (hall b hb)
        omega
    · rintro (h | h)
      · exact Or.inl h
      · right
        rcases Nat.lt_or_ge (value.countP guid_byte_ok) value.length with hlt | hge
        · exact hlt
        · exfalso
          apply h
          intro b hb
          exact (guid_byte_ok_iff).mp (hiff.mp (by omega) b hb)
  by_cases hc : value.length = 16 ∧
      ∀ b ∈ value, (0x41 ≤ b ∧ b ≤ 0x59) ∨ (0x61 ≤ b ∧ b ≤ 0x79)
  · rw [if_neg (fun hcond => (key.mp hcond) hc), if_pos hc]
  · rw [if_pos (key.mpr hc), if_neg hc]

/-! ### Claim C7, amended theorem and witness -/

/-- C7 (amended): `from_str` fails with the PartUUID error whenever the
hyphen-stripped character count differs from 16 (UUID_SIZE), and proceeds to
per-character validation when exactly 16 remain — a 16-character all-letter
string parses successfully, while the canonical 36-character hyphenated form
(32 non-hyphen characters) fails the length check. -/
theorem C7_from_str_length_amended :
    (∀ s : List Char, (s.filter fun ch => ch != '-').length ≠ 16 →
        PartUUID.from_str s = .error .PartUUID) ∧
      PartUUID.from_str (List.replicate 16 'A') = .ok ⟨List.replicate 16 0x41⟩ ∧
      PartUUID.from_str "AAAAAAAA-AAAA-AAAA-AAAA-AAAAAAAAAAAA".toList = .error .PartUUID := by
  refine ⟨?_, by decide, by decide⟩
  intro s hne
  unfold PartUUID.from_str UUID_SIZE
  rw [if_pos hne]
  rfl

/-- C7 witness: the empty string has 0 non-hyphen characters, so the amended
length rule rejects it. -/
theorem C7_from_str_length_amended_witness : PartUUID.from_str [] = .error .PartUUID :=
  C7_from_str_length_amended.1 [] (by decide)

/-! ### Claim C10, amended theorem and witness -/

/-- C10 (amended): `generate_part_entries` panics on part_entry_size = 0
(division by zero); panics for every 0 < size < 16 on any buffer of length at
least size, because the 16-byte GUID slice of the first entry is out of
range; and for 16 ≤ size < 72 it panics on all-letter buffers whose GUID
fields validate (while content that fails GUID validation returns an error
first, as the counterexample shows). -/
theorem C10_amended_panics :
    (∀ data : List Nat, GuidPartTable.parse_part_table ⟨.Lb512⟩ data 0 = .panic) ∧
      (∀ (s : Nat) (data : List Nat), 0 < s → s < 16 → s ≤ data.length →
        GuidPartTable.parse_part_table ⟨.Lb512⟩ data s = .panic) ∧
      (∀ s : Nat, 16 ≤ s → s < 72 →
        GuidPartTable.parse_part_table ⟨.Lb512⟩ (List.replicate s 0x41) s = .panic) := by
  refine ⟨?_, ?_, ?_⟩
  · intro data
    rfl
  · intro s data hs0 hs16 hsle
    unfold GuidPartTable.parse_part_table PartTableEntry.generate_part_entries
    rw [if_neg (by omega)]
    obtain ⟨m, hm⟩ : ∃ m, data.length / s = m + 1 := by
      have h1 : 1 ≤ data.length / s := (Nat.one_le_div_iff (by omega)).mpr hsle
      exact ⟨data.length / s - 1, by omega⟩
    rw [hm]
    simp only [generateLoop]
    rw [if_pos (by omega : 0 * s + s ≤ data.length)]
    have hsl : (subslice data (0 * s) s).length = s := subslice_length (by omega)
    simp only [PartEntry.deserialize, LittleEndianBytes.ofSlice]
    rw [if_neg (show ¬16 ≤ (subslice data (0 * s) s).length by rw [hsl]; omega)]
  · intro s h16 h72
    interval_cases s <;> decide

/-- C10 witness: size 8 on an 8-byte buffer panics (short GUID slice), and
size 40 on a 40-byte all-letter buffer panics (u64 read past the slice). -/
theorem C10_amended_panics_witness :
    GuidPartTable.parse_part_table ⟨.Lb512⟩ (List.replicate 8 0) 8 = .panic ∧
      GuidPartTable.parse_part_table ⟨.Lb512⟩ (List.replicate 40 0x41) 40 = .panic :=
  ⟨C10_amended_panics.2.1 8 (List.replicate 8 0) (by decide) (by decide) (by decide),
   C10_amended_panics.2.2 40 (by decide) (by decide)⟩
